import Mathlib

/-!
# Verification of the openGauss parse-analysis core

Shallow embedding, in Lean 4, of the semantic-analysis routines of the
repository (src/parse_agg.cpp, src/parse_relation.cpp, src/parse_startwith.cpp,
src/parse_target.cpp) together with proofs of the behavioural properties the
specification states about them.

Conventions used throughout:
* C `List*` becomes `List _`; `NIL` becomes `[]`.
* machine integers become `Nat`/`Int`; the only overflow-relevant spot
  (the CUBE bit mask) is guarded by the source's own `number_bits < 31`
  assertion, which we carry as a hypothesis.
* `ereport(ERROR, ...)` becomes an `Except` error value carrying an error tag
  (and, where a claim talks about the message text, the message).
* catalog / collaborator calls that live outside the analyzed sources
  (e.g. `check_functional_grouping`) are threaded as explicit oracle
  parameters, mirroring §6 of the specification.
-/

namespace ParseAgg

/-! ## Grouping-set expansion (`expand_groupingset_node`, `expand_grouping_sets`)

Grouping-set contents are the transformed group-clause references, which at
this stage are plain integers (`list_union_int` is used on them in the
source); we model them as `Nat`.  `AssertEreport(gs_current->kind ==
GROUPING_SET_SIMPLE, ...)` in the ROLLUP/CUBE arms states the parser
invariant that ROLLUP/CUBE members are SIMPLE sets, so ROLLUP/CUBE members
are embedded directly as the member sets' contents. -/

inductive GroupingSetNode where
  /-- GROUPING_SET_EMPTY -/
  | empty : GroupingSetNode
  /-- GROUPING_SET_SIMPLE, with its content list -/
  | simple (content : List Nat) : GroupingSetNode
  /-- GROUPING_SET_ROLLUP over simple members (each member = its content) -/
  | rollup (members : List (List Nat)) : GroupingSetNode
  /-- GROUPING_SET_CUBE over simple members (each member = its content) -/
  | cube (members : List (List Nat)) : GroupingSetNode
  /-- GROUPING_SET_SETS -/
  | sets (members : List GroupingSetNode) : GroupingSetNode
deriving Repr

/-- The inner `foreach` of the ROLLUP arm: concatenate the contents of the
first `i` members, stopping early (`if (--i == 0) break`). -/
def rollupTake : Nat → List (List Nat) → List Nat
  | 0, _ => []
  | _ + 1, [] => []
  | i + 1, m :: ms => m ++ rollupTake i ms

/-- The `while (curgroup_size > 0)` loop of the ROLLUP arm: one result row per
`curgroup_size` value, counting down. -/
def rollupLoop (members : List (List Nat)) : Nat → List (List Nat)
  | 0 => []
  | k + 1 => rollupTake (k + 1) members :: rollupLoop members k

/-- The inner `foreach` of the CUBE arm: walk the members with a shifting
`mask`, keeping a member's content when `mask & i` is set. -/
def cubeSelectAux (mask i : Nat) : List (List Nat) → List Nat
  | [] => []
  | m :: ms => (if mask &&& i ≠ 0 then m else []) ++ cubeSelectAux (mask * 2) i ms

mutual

/-- `expand_groupingset_node` (src/parse_agg.cpp:1508). -/
def expand_groupingset_node : GroupingSetNode → List (List Nat)
  | .empty => [[]]
  | .simple c => [c]
  | .rollup ms => rollupLoop ms ms.length ++ [[]]
  | .cube ms => (List.range (2 ^ ms.length)).map (fun i => cubeSelectAux 1 i ms)
  | .sets gss => expand_groupingset_list gss

/-- The SETS arm's `foreach` with `list_concat`. -/
def expand_groupingset_list : List GroupingSetNode → List (List Nat)
  | [] => []
  | g :: gs => expand_groupingset_node g ++ expand_groupingset_list gs

end

/-- `list_union_int` as used by `expand_grouping_sets`: start from a copy of
the first list and append each member of the second not already present. -/
def list_union_int (l1 l2 : List Nat) : List Nat :=
  l2.foldl (fun acc x => if x ∈ acc then acc else acc ++ [x]) l1

/-- First loop of `expand_grouping_sets`: expand every clause, tracking the
running product `numsets`; bail out with NIL (`none`) when `limit` is
exceeded. -/
def collectExpandedGroups (limit : Int) : List GroupingSetNode → Nat →
    Option (List (List (List Nat)))
  | [], _ => some []
  | g :: gs, numsets =>
    let cur := expand_groupingset_node g
    let numsets' := numsets * cur.length
    if 0 ≤ limit ∧ (numsets' : Int) > limit then none
    else (collectExpandedGroups limit gs numsets').map (cur :: ·)

/-- The pairwise cross-product loop of `expand_grouping_sets`, with
`list_union_int` de-duplicating inside each combination. -/
def crossCombine : List (List (List Nat)) → List (List Nat)
  | [] => []
  | first :: rest =>
    rest.foldl
      (fun result p => result.flatMap (fun q => p.map (fun e => list_union_int q e)))
      (first.map (fun l => list_union_int [] l))

/-- Comparison used by the final `qsort`: ascending list length. -/
def lenLE (a b : List Nat) : Prop := a.length ≤ b.length

instance : DecidableRel lenLE := fun a b => Nat.decLe a.length b.length

instance : IsTotal (List Nat) lenLE := ⟨fun a b => Nat.le_total a.length b.length⟩

instance : IsTrans (List Nat) lenLE := ⟨fun _ _ _ => Nat.le_trans⟩

/-- `expand_grouping_sets` (src/parse_agg.cpp:1821).  The C `qsort` with
`cmp_list_len_asc` sorts ascending by length with unspecified (but
deterministic) tie order; it is modelled by insertion sort over the same
comparison. -/
def expand_grouping_sets (groupingSets : List GroupingSetNode) (limit : Int) :
    List (List Nat) :=
  if groupingSets.isEmpty then []
  else
    match collectExpandedGroups limit groupingSets 1 with
    | none => []
    | some expanded_groups =>
      let result := crossCombine expanded_groups
      if result.length > 1 then List.insertionSort lenLE result else result

/-! ### Helper lemmas -/

theorem rollupTake_eq_take_flatten (i : Nat) (ms : List (List Nat)) :
    rollupTake i ms = (ms.take i).flatten := by
  induction i generalizing ms with
  | zero => simp [rollupTake]
  | succ n ih =>
    cases ms with
    | nil => simp [rollupTake]
    | cons m ms => simp [rollupTake, ih]

theorem rollupLoop_eq (ms : List (List Nat)) (n : Nat) :
    rollupLoop ms n =
      ((List.range n).reverse).map (fun k => (ms.take (k + 1)).flatten) := by
  induction n with
  | zero => simp [rollupLoop]
  | succ k ih =>
    simp only [rollupLoop, ih, List.range_succ, List.reverse_append,
      List.reverse_cons, List.reverse_nil, List.nil_append, List.map_cons,
      List.singleton_append, rollupTake_eq_take_flatten]

theorem rollupLoop_length (ms : List (List Nat)) (n : Nat) :
    (rollupLoop ms n).length = n := by
  induction n with
  | zero => rfl
  | succ k ih => simp [rollupLoop, ih]

/-- Declarative reading of the CUBE subset selection (the specification's
"one list per subset of the N sets"): member number `j` of the CUBE is kept
in combination number `i` exactly when bit `j` of `i` is set. -/
def cubeSpecSelect (i : Nat) : Nat → List (List Nat) → List Nat
  | _, [] => []
  | j, m :: ms => (if i.testBit j then m else []) ++ cubeSpecSelect i (j + 1) ms

/-- Characterisation of the CUBE inner loop: starting from `mask = 2 ^ j`,
the shifting-mask walk keeps member `k` of the remaining list exactly when
bit `j + k` of `i` is set. -/
theorem cubeSelectAux_eq (i : Nat) (ms : List (List Nat)) (j : Nat) :
    cubeSelectAux (2 ^ j) i ms = cubeSpecSelect i j ms := by
  induction ms generalizing j with
  | nil => rfl
  | cons m ms ih =>
    have hmask : (2 ^ j &&& i ≠ 0) ↔ i.testBit j := by
      rw [Nat.two_pow_and]
      by_cases hbit : i.testBit j <;> simp [hbit, Nat.pow_eq_zero]
    have hstep : (2 : Nat) ^ j * 2 = 2 ^ (j + 1) := by ring
    by_cases hbit : i.testBit j
    · simp only [cubeSelectAux, cubeSpecSelect, hstep, ih (j + 1),
        if_pos (hmask.mpr hbit), if_pos hbit]
    · simp only [cubeSelectAux, cubeSpecSelect, hstep, ih (j + 1),
        if_neg (fun h => hbit (hmask.mp h)), if_neg hbit]

theorem sorted_of_length_le_one {l : List (List Nat)} (h : l.length ≤ 1) :
    l.Sorted lenLE := by
  match l with
  | [] => exact List.sorted_nil
  | [a] => exact List.sorted_singleton a
  | a :: b :: t => simp at h

theorem expand_grouping_sets_sorted (gss : List GroupingSetNode) (limit : Int) :
    (expand_grouping_sets gss limit).Sorted lenLE := by
  unfold expand_grouping_sets
  split
  · exact List.sorted_nil
  · cases hc : collectExpandedGroups limit gss 1 with
    | none => exact List.sorted_nil
    | some expanded =>
      simp only
      split
      · exact List.sorted_insertionSort lenLE _
      · exact sorted_of_length_le_one (by omega)

/-- Sanity check on the specification's ROLLUP example:
`expand(ROLLUP(a,b,c))` with `a,b,c = 1,2,3`. -/
theorem rollup_example :
    expand_groupingset_node (.rollup [[1], [2], [3]]) =
      [[1, 2, 3], [1, 2], [1], []] := by decide

/-- Sanity check on the specification's CUBE example: `expand(CUBE(a,b))`
with `a,b = 1,2` (combination 0 = `{}`, 1 = `{a}`, 2 = `{b}`, 3 = `{a,b}`). -/
theorem cube_example :
    expand_groupingset_node (.cube [[1], [2]]) = [[], [1], [2], [1, 2]] := by
  decide

/-- Sanity check: the cross product of two grouping-set clauses is sorted
ascending by cardinality. -/
theorem expand_grouping_sets_example :
    expand_grouping_sets [.rollup [[1], [2]], .simple [3]] (-1) =
      [[3], [1, 3], [1, 2, 3]] := by decide

/-- C6: For every ROLLUP node over N simple grouping sets,
`expand_groupingset_node` returns exactly N+1 lists: the concatenated
prefixes of the member sets from length N down to length 1, followed by the
empty list. -/
theorem rollup_expansion_shape (ms : List (List Nat)) :
    expand_groupingset_node (.rollup ms) =
      ((List.range ms.length).reverse).map (fun k => (ms.take (k + 1)).flatten)
        ++ [[]] ∧
    (expand_groupingset_node (.rollup ms)).length = ms.length + 1 := by
  constructor
  · simp only [expand_groupingset_node, rollupLoop_eq]
  · simp only [expand_groupingset_node, List.length_append,
      rollupLoop_length, List.length_singleton]

/-- C5: For every CUBE node over N simple grouping sets (N below the
source's `number_bits < 31` assertion bound), `expand_groupingset_node`
returns exactly 2^N lists, combination number `i` holding exactly the
members selected by the bits of `i`; and every list returned by
`expand_grouping_sets` is sorted ascending by cardinality. -/
theorem cube_expansion_shape_and_sets_sorted (ms : List (List Nat))
    (h : ms.length < 31) :
    (expand_groupingset_node (.cube ms)).length = 2 ^ ms.length
    ∧ (∀ i, i < 2 ^ ms.length →
        (expand_groupingset_node (.cube ms))[i]? = some (cubeSpecSelect i 0 ms))
    ∧ (∀ (gss : List GroupingSetNode) (limit : Int),
        (expand_grouping_sets gss limit).Sorted lenLE) := by
  refine ⟨by simp [expand_groupingset_node], ?_, fun gss limit => expand_grouping_sets_sorted gss limit⟩
  intro i hi
  have h1 : (1 : Nat) = 2 ^ 0 := rfl
  simp only [expand_groupingset_node, List.getElem?_map, List.getElem?_range hi,
    Option.map_some, h1, cubeSelectAux_eq]
  rfl

/-- Witness for C5 at the concrete input `CUBE(a,b)`. -/
theorem cube_expansion_witness :
    ([[1], [2]] : List (List Nat)).length < 31 ∧
      (expand_groupingset_node (.cube [[1], [2]])).length = 2 ^ 2 := by
  refine ⟨by decide, ?_⟩
  exact (cube_expansion_shape_and_sets_sorted [[1], [2]] (by decide)).1

/-- `transformGroupingFunc` (src/parse_agg.cpp:1901): the argument-count
gate at the head of the function.  The argument list is the raw GROUPING()
argument list (elements opaque here). -/
def transformGroupingFunc_lengthGate (args : List Nat) : Except String Unit :=
  if args.length > 31 then .error "GROUPING 参数数量不能超过 32" else .ok ()

/-- C10: `transformGroupingFunc` rejects every GROUPING() call with more
than 31 arguments and passes every call with at most 31, while the error
message it raises states the bound as 32. -/
theorem transformGroupingFunc_arg_bound (args : List Nat) :
    ((transformGroupingFunc_lengthGate args).isOk ↔ args.length ≤ 31)
    ∧ (∀ m, transformGroupingFunc_lengthGate args = .error m →
        m = "GROUPING 参数数量不能超过 32") := by
  constructor
  · by_cases hl : args.length > 31 <;>
      simp [transformGroupingFunc_lengthGate, hl, Except.isOk, Except.toBool] <;>
      omega
  · intro m hm
    by_cases hl : args.length > 31
    · simp only [transformGroupingFunc_lengthGate, if_pos hl,
        Except.error.injEq] at hm
      exact hm.symm
    · simp only [transformGroupingFunc_lengthGate, if_neg hl] at hm
      cases hm

/-- Witness for C10 at 32 and at 31 arguments. -/
theorem transformGroupingFunc_arg_bound_witness :
    ¬ (transformGroupingFunc_lengthGate (List.replicate 32 0)).isOk
    ∧ (transformGroupingFunc_lengthGate (List.replicate 31 0)).isOk := by
  constructor
  · intro hok
    have h := (transformGroupingFunc_arg_bound (List.replicate 32 0)).1.mp hok
    simp at h
  · exact (transformGroupingFunc_arg_bound (List.replicate 31 0)).1.mpr (by simp)

/-! ## Aggregate level assignment (`check_agg_arguments`)

Transformed expression trees, as seen by `check_agg_arguments_walker` and
`check_ungrouped_columns_walker`.  `pconst` stands for `Const`/`Param`;
`other` is any further expression node, through which
`expression_tree_walker` simply recurses into the children; `query` is a
subquery (`Query` node), whose contained expressions `query_tree_walker`
visits with `sublevels_up` incremented. -/

inductive PNode where
  | pconst : PNode
  | var (varno varattno varlevelsup : Nat) : PNode
  | aggref (agglevelsup : Nat) (directargs : List PNode) (args : List PNode) : PNode
  | groupingfunc (agglevelsup : Nat) (args : List PNode) : PNode
  | windowfunc (args : List PNode) : PNode
  | funcexpr (retset : Bool) (args : List PNode) : PNode
  | opexpr (retset : Bool) (args : List PNode) : PNode
  | other (children : List PNode) : PNode
  | query (exprs : List PNode) : PNode

mutual

/-- Structural equality on `PNode` (the parse-tree `equal()`). -/
def PNode.decEq : (x y : PNode) → Decidable (x = y)
  | .pconst, .pconst => isTrue rfl
  | .pconst, .var _ _ _ => isFalse (by intro h; cases h)
  | .pconst, .aggref _ _ _ => isFalse (by intro h; cases h)
  | .pconst, .groupingfunc _ _ => isFalse (by intro h; cases h)
  | .pconst, .windowfunc _ => isFalse (by intro h; cases h)
  | .pconst, .funcexpr _ _ => isFalse (by intro h; cases h)
  | .pconst, .opexpr _ _ => isFalse (by intro h; cases h)
  | .pconst, .other _ => isFalse (by intro h; cases h)
  | .pconst, .query _ => isFalse (by intro h; cases h)
  | .var _ _ _, .pconst => isFalse (by intro h; cases h)
  | .var a0 a1 a2, .var b0 b1 b2 =>
    match Nat.decEq a0 b0, Nat.decEq a1 b1, Nat.decEq a2 b2 with
    | isTrue h0, isTrue h1, isTrue h2 => isTrue (by rw [h0, h1, h2])
    | isFalse h0, _, _ => isFalse (by intro hh; cases hh; exact h0 rfl)
    | _, isFalse h1, _ => isFalse (by intro hh; cases hh; exact h1 rfl)
    | _, _, isFalse h2 => isFalse (by intro hh; cases hh; exact h2 rfl)
  | .var _ _ _, .aggref _ _ _ => isFalse (by intro h; cases h)
  | .var _ _ _, .groupingfunc _ _ => isFalse (by intro h; cases h)
  | .var _ _ _, .windowfunc _ => isFalse (by intro h; cases h)
  | .var _ _ _, .funcexpr _ _ => isFalse (by intro h; cases h)
  | .var _ _ _, .opexpr _ _ => isFalse (by intro h; cases h)
  | .var _ _ _, .other _ => isFalse (by intro h; cases h)
  | .var _ _ _, .query _ => isFalse (by intro h; cases h)
  | .aggref _ _ _, .pconst => isFalse (by intro h; cases h)
  | .aggref _ _ _, .var _ _ _ => isFalse (by intro h; cases h)
  | .aggref a0 a1 a2, .aggref b0 b1 b2 =>
    match Nat.decEq a0 b0, PNode.decEqList a1 b1, PNode.decEqList a2 b2 with
    | isTrue h0, isTrue h1, isTrue h2 => isTrue (by rw [h0, h1, h2])
    | isFalse h0, _, _ => isFalse (by intro hh; cases hh; exact h0 rfl)
    | _, isFalse h1, _ => isFalse (by intro hh; cases hh; exact h1 rfl)
    | _, _, isFalse h2 => isFalse (by intro hh; cases hh; exact h2 rfl)
  | .aggref _ _ _, .groupingfunc _ _ => isFalse (by intro h; cases h)
  | .aggref _ _ _, .windowfunc _ => isFalse (by intro h; cases h)
  | .aggref _ _ _, .funcexpr _ _ => isFalse (by intro h; cases h)
  | .aggref _ _ _, .opexpr _ _ => isFalse (by intro h; cases h)
  | .aggref _ _ _, .other _ => isFalse (by intro h; cases h)
  | .aggref _ _ _, .query _ => isFalse (by intro h; cases h)
  | .groupingfunc _ _, .pconst => isFalse (by intro h; cases h)
  | .groupingfunc _ _, .var _ _ _ => isFalse (by intro h; cases h)
  | .groupingfunc _ _, .aggref _ _ _ => isFalse (by intro h; cases h)
  | .groupingfunc a0 a1, .groupingfunc b0 b1 =>
    match Nat.decEq a0 b0, PNode.decEqList a1 b1 with
    | isTrue h0, isTrue h1 => isTrue (by rw [h0, h1])
    | isFalse h0, _ => isFalse (by intro hh; cases hh; exact h0 rfl)
    | _, isFalse h1 => isFalse (by intro hh; cases hh; exact h1 rfl)
  | .groupingfunc _ _, .windowfunc _ => isFalse (by intro h; cases h)
  | .groupingfunc _ _, .funcexpr _ _ => isFalse (by intro h; cases h)
  | .groupingfunc _ _, .opexpr _ _ => isFalse (by intro h; cases h)
  | .groupingfunc _ _, .other _ => isFalse (by intro h; cases h)
  | .groupingfunc _ _, .query _ => isFalse (by intro h; cases h)
  | .windowfunc _, .pconst => isFalse (by intro h; cases h)
  | .windowfunc _, .var _ _ _ => isFalse (by intro h; cases h)
  | .windowfunc _, .aggref _ _ _ => isFalse (by intro h; cases h)
  | .windowfunc _, .groupingfunc _ _ => isFalse (by intro h; cases h)
  | .windowfunc a0, .windowfunc b0 =>
    match PNode.decEqList a0 b0 with
    | isTrue h0 => isTrue (by rw [h0])
    | isFalse h0 => isFalse (by intro hh; cases hh; exact h0 rfl)
  | .windowfunc _, .funcexpr _ _ => isFalse (by intro h; cases h)
  | .windowfunc _, .opexpr _ _ => isFalse (by intro h; cases h)
  | .windowfunc _, .other _ => isFalse (by intro h; cases h)
  | .windowfunc _, .query _ => isFalse (by intro h; cases h)
  | .funcexpr _ _, .pconst => isFalse (by intro h; cases h)
  | .funcexpr _ _, .var _ _ _ => isFalse (by intro h; cases h)
  | .funcexpr _ _, .aggref _ _ _ => isFalse (by intro h; cases h)
  | .funcexpr _ _, .groupingfunc _ _ => isFalse (by intro h; cases h)
  | .funcexpr _ _, .windowfunc _ => isFalse (by intro h; cases h)
  | .funcexpr a0 a1, .funcexpr b0 b1 =>
    match Bool.decEq a0 b0, PNode.decEqList a1 b1 with
    | isTrue h0, isTrue h1 => isTrue (by rw [h0, h1])
    | isFalse h0, _ => isFalse (by intro hh; cases hh; exact h0 rfl)
    | _, isFalse h1 => isFalse (by intro hh; cases hh; exact h1 rfl)
  | .funcexpr _ _, .opexpr _ _ => isFalse (by intro h; cases h)
  | .funcexpr _ _, .other _ => isFalse (by intro h; cases h)
  | .funcexpr _ _, .query _ => isFalse (by intro h; cases h)
  | .opexpr _ _, .pconst => isFalse (by intro h; cases h)
  | .opexpr _ _, .var _ _ _ => isFalse (by intro h; cases h)
  | .opexpr _ _, .aggref _ _ _ => isFalse (by intro h; cases h)
  | .opexpr _ _, .groupingfunc _ _ => isFalse (by intro h; cases h)
  | .opexpr _ _, .windowfunc _ => isFalse (by intro h; cases h)
  | .opexpr _ _, .funcexpr _ _ => isFalse (by intro h; cases h)
  | .opexpr a0 a1, .opexpr b0 b1 =>
    match Bool.decEq a0 b0, PNode.decEqList a1 b1 with
    | isTrue h0, isTrue h1 => isTrue (by rw [h0, h1])
    | isFalse h0, _ => isFalse (by intro hh; cases hh; exact h0 rfl)
    | _, isFalse h1 => isFalse (by intro hh; cases hh; exact h1 rfl)
  | .opexpr _ _, .other _ => isFalse (by intro h; cases h)
  | .opexpr _ _, .query _ => isFalse (by intro h; cases h)
  | .other _, .pconst => isFalse (by intro h; cases h)
  | .other _, .var _ _ _ => isFalse (by intro h; cases h)
  | .other _, .aggref _ _ _ => isFalse (by intro h; cases h)
  | .other _, .groupingfunc _ _ => isFalse (by intro h; cases h)
  | .other _, .windowfunc _ => isFalse (by intro h; cases h)
  | .other _, .funcexpr _ _ => isFalse (by intro h; cases h)
  | .other _, .opexpr _ _ => isFalse (by intro h; cases h)
  | .other a0, .other b0 =>
    match PNode.decEqList a0 b0 with
    | isTrue h0 => isTrue (by rw [h0])
    | isFalse h0 => isFalse (by intro hh; cases hh; exact h0 rfl)
  | .other _, .query _ => isFalse (by intro h; cases h)
  | .query _, .pconst => isFalse (by intro h; cases h)
  | .query _, .var _ _ _ => isFalse (by intro h; cases h)
  | .query _, .aggref _ _ _ => isFalse (by intro h; cases h)
  | .query _, .groupingfunc _ _ => isFalse (by intro h; cases h)
  | .query _, .windowfunc _ => isFalse (by intro h; cases h)
  | .query _, .funcexpr _ _ => isFalse (by intro h; cases h)
  | .query _, .opexpr _ _ => isFalse (by intro h; cases h)
  | .query _, .other _ => isFalse (by intro h; cases h)
  | .query a0, .query b0 =>
    match PNode.decEqList a0 b0 with
    | isTrue h0 => isTrue (by rw [h0])
    | isFalse h0 => isFalse (by intro hh; cases hh; exact h0 rfl)

def PNode.decEqList : (xs ys : List PNode) → Decidable (xs = ys)
  | [], [] => isTrue rfl
  | [], _ :: _ => isFalse (by intro h; cases h)
  | _ :: _, [] => isFalse (by intro h; cases h)
  | x :: xs, y :: ys =>
    match PNode.decEq x y, PNode.decEqList xs ys with
    | isTrue h1, isTrue h2 => isTrue (by rw [h1, h2])
    | isFalse h1, _ => isFalse (by intro hh; cases hh; exact h1 rfl)
    | _, isFalse h2 => isFalse (by intro hh; cases hh; exact h2 rfl)

end

instance : DecidableEq PNode := PNode.decEq

/-- `check_agg_arguments_context` (minus the ParseState pointer):
`min_varlevel`/`min_agglevel` use `none` for the C sentinel `-1`. -/
structure AggArgsContext where
  min_varlevel : Option Nat
  min_agglevel : Option Nat
  sublevels_up : Nat
deriving DecidableEq, Repr

/-- Errors `check_agg_arguments`/its walker can raise. -/
inductive AggError where
  /-- "aggregate function calls cannot contain set-returning function calls" -/
  | srfInAgg : AggError
  /-- "aggregate function calls cannot contain window function calls" -/
  | windowInAgg : AggError
  /-- "aggregate function calls cannot be nested" -/
  | nestedAgg : AggError
  /-- "outer-level aggregate cannot contain a lower-level variable in its
  direct arguments" -/
  | lowerVarInDirectArgs : AggError
deriving DecidableEq, Repr

/-- The `if (min < 0 || min > v) min = v` update on a sentinel minimum. -/
def updMin (o : Option Nat) (v : Nat) : Option Nat :=
  match o with
  | none => some v
  | some m => if m > v then some v else some m

mutual

/-- `check_agg_arguments_walker` (src/parse_agg.cpp:1064). -/
def aggArgsWalk : PNode → AggArgsContext → Except AggError AggArgsContext
  | .pconst, ctx => .ok ctx
  | .var _ _ lv, ctx =>
    if ctx.sublevels_up ≤ lv then
      .ok { ctx with min_varlevel := updMin ctx.min_varlevel (lv - ctx.sublevels_up) }
    else .ok ctx
  | .aggref lv _ _, ctx =>
    if ctx.sublevels_up ≤ lv then
      .ok { ctx with min_agglevel := updMin ctx.min_agglevel (lv - ctx.sublevels_up) }
    else .ok ctx
  | .groupingfunc lv args, ctx =>
    let ctx' :=
      if ctx.sublevels_up ≤ lv then
        { ctx with min_agglevel := updMin ctx.min_agglevel (lv - ctx.sublevels_up) }
      else ctx
    aggArgsWalkList args ctx'
  | .windowfunc args, ctx =>
    if ctx.sublevels_up = 0 then .error .windowInAgg
    else aggArgsWalkList args ctx
  | .funcexpr retset args, ctx =>
    if ctx.sublevels_up = 0 ∧ retset then .error .srfInAgg
    else aggArgsWalkList args ctx
  | .opexpr retset args, ctx =>
    if ctx.sublevels_up = 0 ∧ retset then .error .srfInAgg
    else aggArgsWalkList args ctx
  | .other children, ctx => aggArgsWalkList children ctx
  | .query exprs, ctx => do
    let ctx' ← aggArgsWalkList exprs { ctx with sublevels_up := ctx.sublevels_up + 1 }
    .ok { ctx' with sublevels_up := ctx.sublevels_up }

/-- `expression_tree_walker` over a `List` node. -/
def aggArgsWalkList : List PNode → AggArgsContext → Except AggError AggArgsContext
  | [], ctx => .ok ctx
  | n :: ns, ctx => do
    let ctx' ← aggArgsWalk n ctx
    aggArgsWalkList ns ctx'

end

/-- `min >= 0 && min < bound` on a sentinel minimum. -/
def optLtBelow (o : Option Nat) (bound : Nat) : Bool :=
  match o with
  | none => false
  | some v => v < bound

/-- `min >= 0 && min <= bound` on a sentinel minimum. -/
def optLeBelow (o : Option Nat) (bound : Nat) : Bool :=
  match o with
  | none => false
  | some v => v ≤ bound

/-- The two walker invocations at the head of `check_agg_arguments`. -/
def scanArgsFilter (args : List PNode) (filter : Option PNode) :
    Except AggError AggArgsContext := do
  let ctx1 ← aggArgsWalkList args ⟨none, none, 0⟩
  match filter with
  | none => .ok ctx1
  | some f => aggArgsWalk f ctx1

/-- `check_agg_arguments` (src/parse_agg.cpp:983). -/
def check_agg_arguments (directargs args : List PNode) (filter : Option PNode) :
    Except AggError Nat := do
  let ctx ← scanArgsFilter args filter
  let agglevel :=
    match ctx.min_varlevel, ctx.min_agglevel with
    | none, none => 0
    | none, some a => a
    | some v, none => v
    | some v, some a => min v a
  if ctx.min_agglevel = some agglevel then .error .nestedAgg
  else match directargs with
  | [] => .ok agglevel
  | _ :: _ => do
    let dctx ← aggArgsWalkList directargs { ctx with min_varlevel := none, min_agglevel := none }
    if optLtBelow dctx.min_varlevel agglevel then .error .lowerVarInDirectArgs
    else if optLeBelow dctx.min_agglevel agglevel then .error .nestedAgg
    else .ok agglevel

/-! ### Declarative candidate levels (the specification's reading)

The specification describes the level computation as a minimum over
"contributions": every variable or nested aggregate found by the scan
contributes its levels-up minus the current sublevels-up counter, negative
contributions being ignored.  The two functions below collect exactly those
contribution lists. -/

mutual

/-- Variable level contributions of one node, scanned at relative depth `sub`. -/
def varCands (sub : Nat) : PNode → List Nat
  | .pconst => []
  | .var _ _ lv => if sub ≤ lv then [lv - sub] else []
  | .aggref _ _ _ => []
  | .groupingfunc _ args => varCandsList sub args
  | .windowfunc args => varCandsList sub args
  | .funcexpr _ args => varCandsList sub args
  | .opexpr _ args => varCandsList sub args
  | .other children => varCandsList sub children
  | .query exprs => varCandsList (sub + 1) exprs

def varCandsList (sub : Nat) : List PNode → List Nat
  | [] => []
  | n :: ns => varCands sub n ++ varCandsList sub ns

end

mutual

/-- Nested-aggregate level contributions of one node at relative depth `sub`. -/
def aggCands (sub : Nat) : PNode → List Nat
  | .pconst => []
  | .var _ _ _ => []
  | .aggref lv _ _ => if sub ≤ lv then [lv - sub] else []
  | .groupingfunc lv args =>
    (if sub ≤ lv then [lv - sub] else []) ++ aggCandsList sub args
  | .windowfunc args => aggCandsList sub args
  | .funcexpr _ args => aggCandsList sub args
  | .opexpr _ args => aggCandsList sub args
  | .other children => aggCandsList sub children
  | .query exprs => aggCandsList (sub + 1) exprs

def aggCandsList (sub : Nat) : List PNode → List Nat
  | [] => []
  | n :: ns => aggCands sub n ++ aggCandsList sub ns

end

/-- Folding `updMin` over a list. -/
def listMinU (o : Option Nat) (l : List Nat) : Option Nat := l.foldl updMin o

theorem listMinU_append (o : Option Nat) (l1 l2 : List Nat) :
    listMinU o (l1 ++ l2) = listMinU (listMinU o l1) l2 := by
  simp [listMinU, List.foldl_append]

theorem updMin_some (m v : Nat) : updMin (some m) v = some (min m v) := by
  show (if m > v then some v else some m) = some (min m v)
  split <;> (congr 1; omega)

theorem listMinU_some (a : Nat) (l : List Nat) :
    listMinU (some a) l = some (l.foldl min a) := by
  induction l generalizing a with
  | nil => rfl
  | cons x xs ih =>
    show listMinU (updMin (some a) x) xs = _
    rw [updMin_some, ih]
    rfl

/-- The sentinel-minimum fold computes `List.min?`. -/
theorem listMinU_none (l : List Nat) : listMinU none l = l.min? := by
  cases l with
  | nil => rfl
  | cons x xs =>
    rw [List.min?_cons']
    show listMinU (updMin none x) xs = _
    show listMinU (some x) xs = _
    rw [listMinU_some]

theorem listMinU_single (o : Option Nat) (x : Nat) : listMinU o [x] = updMin o x := rfl

theorem listMinU_nil (o : Option Nat) : listMinU o [] = o := rfl

theorem listMinU_cons (o : Option Nat) (x : Nat) (l : List Nat) :
    listMinU o (x :: l) = listMinU (updMin o x) l := rfl

mutual

/-- On success, `check_agg_arguments_walker` leaves `sublevels_up` unchanged
and folds exactly the declarative contribution lists into the two minima. -/
theorem aggArgsWalk_ok_spec (n : PNode) (ctx ctx' : AggArgsContext)
    (h : aggArgsWalk n ctx = .ok ctx') :
    ctx' = ⟨listMinU ctx.min_varlevel (varCands ctx.sublevels_up n),
            listMinU ctx.min_agglevel (aggCands ctx.sublevels_up n),
            ctx.sublevels_up⟩ := by
  match n with
  | .pconst =>
    rw [aggArgsWalk] at h
    cases h
    rfl
  | .var vno vatt lv =>
    rw [aggArgsWalk] at h
    by_cases hle : ctx.sublevels_up ≤ lv <;>
      simp only [hle, if_pos, if_neg, reduceIte] at h <;> cases h <;>
      simp [varCands, aggCands, hle, listMinU_single, listMinU_nil]
  | .aggref lv d a =>
    rw [aggArgsWalk] at h
    by_cases hle : ctx.sublevels_up ≤ lv <;>
      simp only [hle, if_pos, if_neg, reduceIte] at h <;> cases h <;>
      simp [varCands, aggCands, hle, listMinU_single, listMinU_nil]
  | .groupingfunc lv args =>
    rw [aggArgsWalk] at h
    have hlist := aggArgsWalkList_ok_spec args _ ctx' h
    by_cases hle : ctx.sublevels_up ≤ lv <;>
      simp only [hle, if_pos, if_neg, reduceIte] at hlist <;>
      simp [varCands, aggCands, hle, hlist, listMinU_cons, listMinU_single,
        listMinU_nil]
  | .windowfunc args =>
    rw [aggArgsWalk] at h
    by_cases h0 : ctx.sublevels_up = 0
    · rw [if_pos h0] at h
      cases h
    · rw [if_neg h0] at h
      have hlist := aggArgsWalkList_ok_spec args _ ctx' h
      simpa [varCands, aggCands] using hlist
  | .funcexpr retset args =>
    rw [aggArgsWalk] at h
    by_cases h0 : ctx.sublevels_up = 0 ∧ retset
    · rw [if_pos h0] at h
      cases h
    · rw [if_neg h0] at h
      have hlist := aggArgsWalkList_ok_spec args _ ctx' h
      simpa [varCands, aggCands] using hlist
  | .opexpr retset args =>
    rw [aggArgsWalk] at h
    by_cases h0 : ctx.sublevels_up = 0 ∧ retset
    · rw [if_pos h0] at h
      cases h
    · rw [if_neg h0] at h
      have hlist := aggArgsWalkList_ok_spec args _ ctx' h
      simpa [varCands, aggCands] using hlist
  | .other children =>
    rw [aggArgsWalk] at h
    have hlist := aggArgsWalkList_ok_spec children _ ctx' h
    simpa [varCands, aggCands] using hlist
  | .query exprs =>
    rw [aggArgsWalk] at h
    cases hq : aggArgsWalkList exprs
        { ctx with sublevels_up := ctx.sublevels_up + 1 } with
    | error e =>
      rw [hq] at h
      simp [Bind.bind, Except.bind] at h
    | ok ctxq =>
      rw [hq] at h
      simp only [Bind.bind, Except.bind, Except.ok.injEq] at h
      have hlist := aggArgsWalkList_ok_spec exprs _ ctxq hq
      subst hlist
      cases h
      simp [varCands, aggCands]

theorem aggArgsWalkList_ok_spec (ns : List PNode) (ctx ctx' : AggArgsContext)
    (h : aggArgsWalkList ns ctx = .ok ctx') :
    ctx' = ⟨listMinU ctx.min_varlevel (varCandsList ctx.sublevels_up ns),
            listMinU ctx.min_agglevel (aggCandsList ctx.sublevels_up ns),
            ctx.sublevels_up⟩ := by
  match ns with
  | [] =>
    rw [aggArgsWalkList] at h
    cases h
    rfl
  | n :: rest =>
    rw [aggArgsWalkList] at h
    cases hw : aggArgsWalk n ctx with
    | error e =>
      rw [hw] at h
      simp [Bind.bind, Except.bind] at h
    | ok c1 =>
      rw [hw] at h
      simp only [Bind.bind, Except.bind] at h
      have h1 := aggArgsWalk_ok_spec n ctx c1 hw
      have h2 := aggArgsWalkList_ok_spec rest c1 ctx' h
      subst h1
      simp only at h2
      simp [h2, varCandsList, aggCandsList, listMinU_append]

end

theorem foldl_min_pull (l : List Nat) : ∀ v x : Nat,
    List.foldl min (min v x) l = min v (List.foldl min x l) := by
  induction l with
  | nil => intro v x; rfl
  | cons y ys ih =>
    intro v x
    show List.foldl min (min (min v x) y) ys = min v (List.foldl min (min x y) ys)
    rw [Nat.min_assoc, ih]

theorem listMinU_merge (o : Option Nat) (l : List Nat) :
    listMinU o l = match o, l.min? with
      | none, m => m
      | some v, none => some v
      | some v, some m => some (min v m) := by
  cases o with
  | none =>
    rw [listMinU_none]
  | some v =>
    rw [listMinU_some]
    cases l with
    | nil => rfl
    | cons x xs =>
      rw [List.min?_cons']
      show some (List.foldl min (min v x) xs) = some (min v (List.foldl min x xs))
      rw [foldl_min_pull]

theorem min?_append (l1 l2 : List Nat) :
    (l1 ++ l2).min? = listMinU l1.min? l2 := by
  rw [← listMinU_none l1, ← listMinU_append, listMinU_none]

theorem optLtBelow_iff (o : Option Nat) (b : Nat) :
    optLtBelow o b = true ↔ ∃ v, o = some v ∧ v < b := by
  cases o <;> simp [optLtBelow]

theorem optLeBelow_iff (o : Option Nat) (b : Nat) :
    optLeBelow o b = true ↔ ∃ v, o = some v ∧ v ≤ b := by
  cases o <;> simp [optLeBelow]

/-- Variable contributions of an aggregate call's aggregated arguments plus
its FILTER clause. -/
def aggCallVarCands (args : List PNode) (filter : Option PNode) : List Nat :=
  varCandsList 0 args ++ (match filter with | none => [] | some f => varCands 0 f)

/-- Nested-aggregate contributions of an aggregate call's aggregated
arguments plus its FILTER clause. -/
def aggCallAggCands (args : List PNode) (filter : Option PNode) : List Nat :=
  aggCandsList 0 args ++ (match filter with | none => [] | some f => aggCands 0 f)

/-- The specification's level formula: the minimum over all contributions,
defaulting to 0 when none exist. -/
def aggCallLevel (args : List PNode) (filter : Option PNode) : Nat :=
  ((aggCallVarCands args filter ++ aggCallAggCands args filter).min?).getD 0

theorem scanArgsFilter_ok_spec (args : List PNode) (filter : Option PNode)
    (ctx : AggArgsContext) (h : scanArgsFilter args filter = .ok ctx) :
    ctx = ⟨(aggCallVarCands args filter).min?,
           (aggCallAggCands args filter).min?, 0⟩ := by
  rw [scanArgsFilter] at h
  cases hargs : aggArgsWalkList args ⟨none, none, 0⟩ with
  | error e =>
    rw [hargs] at h
    cases filter <;> simp [Bind.bind, Except.bind] at h
  | ok ctx1 =>
    rw [hargs] at h
    have h1 := aggArgsWalkList_ok_spec args _ ctx1 hargs
    cases filter with
    | none =>
      simp only [Bind.bind, Except.bind] at h
      cases h
      rw [h1]
      simp [aggCallVarCands, aggCallAggCands, listMinU_none]
    | some f =>
      simp only [Bind.bind, Except.bind] at h
      have h2 := aggArgsWalk_ok_spec f ctx1 ctx h
      rw [h2, h1]
      simp only [aggCallVarCands, aggCallAggCands, listMinU_none, min?_append]

/-- The `agglevel` selection in `check_agg_arguments` equals the
specification's minimum-with-default-0. -/
theorem agglevel_merge (vc ac : List Nat) :
    (match vc.min?, ac.min? with
      | none, none => 0
      | none, some a => a
      | some v, none => v
      | some v, some a => min v a) = ((vc ++ ac).min?).getD 0 := by
  have h : (vc ++ ac).min? = listMinU vc.min? ac := by
    rw [← listMinU_none, listMinU_append, listMinU_none]
  rw [h, listMinU_merge]
  cases vc.min? <;> cases ac.min? <;> rfl

/-- C2 (amended): `check_agg_arguments` assigns the aggregate's level as the
minimum over all variable and nested-aggregate contributions of the
aggregated arguments and FILTER (levels-up minus sublevels-up, negative
contributions ignored), defaulting to 0; and it raises the nested-aggregate
error exactly when that level equals the minimum nested-aggregate
contribution, or — for an ordered-set aggregate — when the direct arguments
contain no variable below the level but do contain a nested aggregate at or
below it.  Hypotheses: the argument/FILTER scan and the direct-argument
scan raise no SRF/window-function error. -/
theorem check_agg_arguments_spec
    (directargs args : List PNode) (filter : Option PNode)
    (ctx dctx : AggArgsContext)
    (hscan : scanArgsFilter args filter = .ok ctx)
    (hdscan : aggArgsWalkList directargs ⟨none, none, 0⟩ = .ok dctx) :
    (∀ lvl, check_agg_arguments directargs args filter = .ok lvl →
        lvl = aggCallLevel args filter)
    ∧ (check_agg_arguments directargs args filter = .error .nestedAgg ↔
        ((aggCallAggCands args filter).min? = some (aggCallLevel args filter)
         ∨ ((aggCallAggCands args filter).min? ≠ some (aggCallLevel args filter)
            ∧ directargs ≠ []
            ∧ ¬ (∃ v, (varCandsList 0 directargs).min? = some v
                   ∧ v < aggCallLevel args filter)
            ∧ (∃ a, (aggCandsList 0 directargs).min? = some a
                   ∧ a ≤ aggCallLevel args filter)))) := by
  have hctx := scanArgsFilter_ok_spec args filter ctx hscan
  have hdctx := aggArgsWalkList_ok_spec directargs _ dctx hdscan
  simp only [listMinU_none] at hdctx
  have hmagg : ctx.min_agglevel = (aggCallAggCands args filter).min? := by
    rw [hctx]
  have hdv : dctx.min_varlevel = (varCandsList 0 directargs).min? := by
    rw [hdctx]
  have hda : dctx.min_agglevel = (aggCandsList 0 directargs).min? := by
    rw [hdctx]
  have hbody : check_agg_arguments directargs args filter =
      (if (aggCallAggCands args filter).min? = some (aggCallLevel args filter) then
          Except.error AggError.nestedAgg
       else match directargs with
       | [] => Except.ok (aggCallLevel args filter)
       | _ :: _ =>
         if optLtBelow ((varCandsList 0 directargs).min?) (aggCallLevel args filter) then
           Except.error AggError.lowerVarInDirectArgs
         else if optLeBelow ((aggCandsList 0 directargs).min?) (aggCallLevel args filter) then
           Except.error AggError.nestedAgg
         else Except.ok (aggCallLevel args filter)) := by
    rw [check_agg_arguments, hscan]
    simp only [Bind.bind, Except.bind]
    have hL : (match ctx.min_varlevel, ctx.min_agglevel with
        | none, none => 0
        | none, some a => a
        | some v, none => v
        | some v, some a => min v a) = aggCallLevel args filter := by
      rw [hctx]
      exact agglevel_merge _ _
    rw [hL, hmagg]
    cases directargs with
    | nil => rfl
    | cons d ds =>
      have hstart : { ctx with min_varlevel := none, min_agglevel := none }
          = (⟨none, none, 0⟩ : AggArgsContext) := by
        rw [hctx]
      rw [hstart, hdscan]
      simp only [Bind.bind, Except.bind]
      rw [hdv, hda]
  rw [hbody]
  by_cases hA : (aggCallAggCands args filter).min? = some (aggCallLevel args filter)
  · rw [if_pos hA]
    constructor
    · intro lvl hlvl
      cases hlvl
    · constructor
      · intro _
        exact Or.inl hA
      · intro _
        rfl
  · rw [if_neg hA]
    cases directargs with
    | nil =>
      constructor
      · intro lvl hlvl
        have h' : Except.ok (aggCallLevel args filter) = Except.ok lvl := hlvl
        cases h'
        rfl
      · constructor
        · intro hcon
          have h' : Except.ok (aggCallLevel args filter) =
              Except.error AggError.nestedAgg := hcon
          cases h'
        · intro hcon
          rcases hcon with h | ⟨_, hne, _, _⟩
          · exact absurd h hA
          · exact absurd rfl hne
    | cons d ds =>
      by_cases hB : optLtBelow ((varCandsList 0 (d :: ds)).min?)
          (aggCallLevel args filter) = true
      · rw [if_pos hB]
        constructor
        · intro lvl hlvl
          have h' : Except.error AggError.lowerVarInDirectArgs =
              Except.ok lvl := hlvl
          cases h'
        · constructor
          · intro hcon
            have h' : Except.error AggError.lowerVarInDirectArgs =
                Except.error AggError.nestedAgg := hcon
            cases h'
          · intro hcon
            rcases hcon with h | ⟨_, _, hnB, _⟩
            · exact absurd h hA
            · exact absurd ((optLtBelow_iff _ _).mp hB) hnB
      · rw [if_neg hB]
        by_cases hC : optLeBelow ((aggCandsList 0 (d :: ds)).min?)
            (aggCallLevel args filter) = true
        · rw [if_pos hC]
          constructor
          · intro lvl hlvl
            have h' : Except.error AggError.nestedAgg = Except.ok lvl := hlvl
            cases h'
          · constructor
            · intro _
              right
              refine ⟨hA, by simp, ?_, (optLeBelow_iff _ _).mp hC⟩
              intro hex
              exact hB ((optLtBelow_iff _ _).mpr hex)
            · intro _
              rfl
        · rw [if_neg hC]
          constructor
          · intro lvl hlvl
            have h' : Except.ok (aggCallLevel args filter) = Except.ok lvl := hlvl
            cases h'
            rfl
          · constructor
            · intro hcon
              have h' : Except.ok (aggCallLevel args filter) =
                  Except.error AggError.nestedAgg := hcon
              cases h'
            · intro hcon
              rcases hcon with h | ⟨_, _, _, hex⟩
              · exact absurd h hA
              · exact ((hC ((optLeBelow_iff _ _).mpr hex)).elim)

/-- C2 counterexample: for an ordered-set aggregate whose direct arguments
contain a local nested aggregate (`aggref` at level 0) while the aggregated
arguments contain only a local variable, `check_agg_arguments` raises
"aggregate function calls cannot be nested" even though the computed level
(0) does not equal the minimum nested-aggregate level of the aggregated
arguments/ORDER BY/FILTER (there is none), refuting the claim's
"exactly when". -/
theorem check_agg_arguments_nested_not_iff_cex :
    check_agg_arguments [PNode.aggref 0 [] []] [PNode.var 1 1 0] none
        = Except.error AggError.nestedAgg
    ∧ (aggCallAggCands [PNode.var 1 1 0] none).min? ≠
        some (aggCallLevel [PNode.var 1 1 0] none) := by
  constructor
  · rfl
  · intro h
    exact Option.noConfusion h

/-- Witness for C2 at a one-variable aggregate two levels up. -/
theorem check_agg_arguments_spec_witness :
    check_agg_arguments [] [PNode.var 1 1 2] none =
      Except.ok (aggCallLevel [PNode.var 1 1 2] none) := by
  have heval : check_agg_arguments [] [PNode.var 1 1 2] none = Except.ok 2 := rfl
  have hspec := check_agg_arguments_spec [] [PNode.var 1 1 2] none
      ⟨some 2, none, 0⟩ ⟨none, none, 0⟩ rfl rfl
  exact heval.trans (congrArg Except.ok (hspec.1 2 heval).symm)

/-! ## Ungrouped-column check (`check_ungrouped_columns_walker`)

The walker runs against the enclosing query's range table and the catalog's
functional-dependency test `check_functional_grouping`; the latter is an
external collaborator (§6 of the specification) threaded as the oracle
`funcDep`, keyed by the relation id it receives. -/

/-- The slice of a `RangeTblEntry` the walker consults: its catalog id and
whether `rtekind == RTE_RELATION`. -/
structure RTE where
  relid : Nat
  isRelation : Bool
deriving DecidableEq, Repr

/-- The walker's read-only surroundings: the range table (`pstate->p_rtable`)
and the `check_functional_grouping` oracle. -/
structure GroupEnv where
  rtable : List RTE
  funcDep : Nat → Bool

/-- The fixed fields of `check_ungrouped_columns_context`. -/
structure UngroupedCtx where
  groupClauses : List PNode
  have_non_var_grouping : Bool

/-- The mutable fields threaded through the walk: the per-relation memo
`func_grouped_rels` and the query's `constraintDeps`. -/
structure UngroupedState where
  func_grouped_rels : List Nat
  constraintDeps : List Nat
deriving DecidableEq, Repr

/-- Errors `check_ungrouped_columns_walker` can raise. -/
inductive UngroupedErr where
  /-- "unexpected args inside agg direct args" -/
  | unexpectedDirectArgs : UngroupedErr
  /-- the `AssertEreport` on `var->varno` being a valid range-table index -/
  | badVar (vno : Nat) : UngroupedErr
  /-- "column ... must appear in the GROUP BY clause or be used in an
  aggregate function" -/
  | ungroupedLocal (vno vatt : Nat) : UngroupedErr
  /-- "subquery uses ungrouped column ... from outer query" -/
  | ungroupedOuter (vno vatt : Nat) : UngroupedErr
deriving DecidableEq, Repr

/-- The inner `foreach` of the Var case: some GROUP BY entry is a Var with
the same range-table index and attribute number (at the local level). -/
def varMatchesGroup (gcs : List PNode) (vno vatt : Nat) : Bool :=
  gcs.any fun g =>
    match g with
    | .var gn ga gl => gn == vno && ga == vatt && gl == 0
    | _ => false

/-- The subexpression prune of the walker: only with non-Var grouping items
and only at the original query level. -/
def groupMatchedGated (gctx : UngroupedCtx) (node : PNode) (sub : Nat) : Prop :=
  gctx.have_non_var_grouping = true ∧ sub = 0 ∧ node ∈ gctx.groupClauses

instance (gctx : UngroupedCtx) (node : PNode) (sub : Nat) :
    Decidable (groupMatchedGated gctx node sub) := by
  unfold groupMatchedGated
  infer_instance

mutual

/-- `check_ungrouped_columns_walker` (src/parse_agg.cpp:1187). -/
def ungroupedWalk (env : GroupEnv) (gctx : UngroupedCtx) (node : PNode)
    (sub : Nat) (inDirect : Bool) (st : UngroupedState) :
    Except UngroupedErr UngroupedState :=
  match node with
  | .pconst => .ok st
  | .aggref lv d a =>
    if lv = sub then
      if inDirect then .error .unexpectedDirectArgs
      else ungroupedWalkList env gctx d sub true st
    else if sub < lv then .ok st
    else if groupMatchedGated gctx (.aggref lv d a) sub then .ok st
    else do
      let st1 ← ungroupedWalkList env gctx d sub inDirect st
      ungroupedWalkList env gctx a sub inDirect st1
  | .groupingfunc lv args =>
    if sub ≤ lv then .ok st
    else if groupMatchedGated gctx (.groupingfunc lv args) sub then .ok st
    else ungroupedWalkList env gctx args sub inDirect st
  | .var vno vatt lv =>
    if groupMatchedGated gctx (.var vno vatt lv) sub then .ok st
    else if lv ≠ sub then .ok st
    else if (¬ gctx.have_non_var_grouping = true ∨ sub ≠ 0)
        ∧ varMatchesGroup gctx.groupClauses vno vatt = true then .ok st
    else if vno ∈ st.func_grouped_rels then .ok st
    else if vno = 0 then .error (.badVar vno)
    else match env.rtable[vno - 1]? with
      | none => .error (.badVar vno)
      | some rte =>
        if rte.isRelation = true ∧ env.funcDep rte.relid = true then
          .ok ⟨st.func_grouped_rels ++ [vno], st.constraintDeps ++ [rte.relid]⟩
        else if sub = 0 then .error (.ungroupedLocal vno vatt)
        else .error (.ungroupedOuter vno vatt)
  | .windowfunc args =>
    if groupMatchedGated gctx (.windowfunc args) sub then .ok st
    else ungroupedWalkList env gctx args sub inDirect st
  | .funcexpr retset args =>
    if groupMatchedGated gctx (.funcexpr retset args) sub then .ok st
    else ungroupedWalkList env gctx args sub inDirect st
  | .opexpr retset args =>
    if groupMatchedGated gctx (.opexpr retset args) sub then .ok st
    else ungroupedWalkList env gctx args sub inDirect st
  | .other children =>
    if groupMatchedGated gctx (.other children) sub then .ok st
    else ungroupedWalkList env gctx children sub inDirect st
  | .query exprs =>
    if groupMatchedGated gctx (.query exprs) sub then .ok st
    else ungroupedWalkList env gctx exprs (sub + 1) inDirect st

def ungroupedWalkList (env : GroupEnv) (gctx : UngroupedCtx)
    (nodes : List PNode) (sub : Nat) (inDirect : Bool) (st : UngroupedState) :
    Except UngroupedErr UngroupedState :=
  match nodes with
  | [] => .ok st
  | n :: ns => do
    let st1 ← ungroupedWalk env gctx n sub inDirect st
    ungroupedWalkList env gctx ns sub inDirect st1

end

/-- A violation the specification's reading predicts. -/
inductive Viol where
  | directNest : Viol
  | badVar (vno : Nat) : Viol
  | ungrouped (sub vno vatt : Nat) : Viol
deriving DecidableEq, Repr

mutual

/-- Declarative reading of the ungrouped-column check: collect, in traversal
order and without any memoisation, every same-level variable that is neither
(a) inside a subexpression lexically equal to a GROUP BY expression at the
original query level, nor (b) matched by range-table index and attribute
number against a GROUP BY column, nor (c) functionally dependent on the
grouping columns via a constraint of its owning base relation. -/
def ungroupedViols (env : GroupEnv) (gcs : List PNode) (sub : Nat)
    (inDirect : Bool) : PNode → List Viol
  | .pconst => []
  | .aggref lv d a =>
    if lv = sub then
      if inDirect then [.directNest]
      else ungroupedViolsList env gcs sub true d
    else if sub < lv then []
    else if sub = 0 ∧ (PNode.aggref lv d a) ∈ gcs then []
    else ungroupedViolsList env gcs sub inDirect d
      ++ ungroupedViolsList env gcs sub inDirect a
  | .groupingfunc lv args =>
    if sub ≤ lv then []
    else if sub = 0 ∧ (PNode.groupingfunc lv args) ∈ gcs then []
    else ungroupedViolsList env gcs sub inDirect args
  | .var vno vatt lv =>
    if lv ≠ sub then []
    else if (PNode.var vno vatt 0) ∈ gcs then []
    else if vno = 0 then [.badVar vno]
    else match env.rtable[vno - 1]? with
      | none => [.badVar vno]
      | some rte =>
        if rte.isRelation = true ∧ env.funcDep rte.relid = true then []
        else [.ungrouped sub vno vatt]
  | .windowfunc args =>
    if sub = 0 ∧ (PNode.windowfunc args) ∈ gcs then []
    else ungroupedViolsList env gcs sub inDirect args
  | .funcexpr retset args =>
    if sub = 0 ∧ (PNode.funcexpr retset args) ∈ gcs then []
    else ungroupedViolsList env gcs sub inDirect args
  | .opexpr retset args =>
    if sub = 0 ∧ (PNode.opexpr retset args) ∈ gcs then []
    else ungroupedViolsList env gcs sub inDirect args
  | .other children =>
    if sub = 0 ∧ (PNode.other children) ∈ gcs then []
    else ungroupedViolsList env gcs sub inDirect children
  | .query exprs =>
    if sub = 0 ∧ (PNode.query exprs) ∈ gcs then []
    else ungroupedViolsList env gcs (sub + 1) inDirect exprs

def ungroupedViolsList (env : GroupEnv) (gcs : List PNode) (sub : Nat)
    (inDirect : Bool) : List PNode → List Viol
  | [] => []
  | n :: ns => ungroupedViols env gcs sub inDirect n
      ++ ungroupedViolsList env gcs sub inDirect ns

end

/-- The error the walker raises for a given first violation. -/
def errOfViol : Viol → UngroupedErr
  | .directNest => .unexpectedDirectArgs
  | .badVar vno => .badVar vno
  | .ungrouped sub vno vatt =>
    if sub = 0 then .ungroupedLocal vno vatt else .ungroupedOuter vno vatt

/-- Soundness of the `func_grouped_rels` memo: every remembered range-table
index denotes an in-range base relation the functional-dependency oracle
accepts. -/
def memoSound (env : GroupEnv) (st : UngroupedState) : Prop :=
  ∀ v ∈ st.func_grouped_rels, v ≠ 0 ∧
    ∃ rte, env.rtable[v - 1]? = some rte ∧ rte.isRelation = true
      ∧ env.funcDep rte.relid = true

/-- No variable is a node of a different kind. -/
def isVarNode : PNode → Bool
  | .var _ _ _ => true
  | _ => false

theorem varMatchesGroup_iff (gcs : List PNode) (vno vatt : Nat) :
    varMatchesGroup gcs vno vatt = true ↔ (PNode.var vno vatt 0) ∈ gcs := by
  induction gcs with
  | nil => simp [varMatchesGroup]
  | cons g gs ih =>
    simp only [varMatchesGroup, List.any_cons, Bool.or_eq_true, List.mem_cons] at *
    constructor
    · intro h
      rcases h with h | h
      · left
        match g, h with
        | .var gn ga gl, h =>
          simp only [Bool.and_eq_true, beq_iff_eq] at h
          rw [h.1.1, h.1.2, h.2]
      · right
        exact ih.mp h
    · intro h
      rcases h with h | h
      · left
        rw [← h]
        simp
      · right
        exact ih.mpr h

/-- With `have_non_var_grouping` computed (as its caller does) from the
grouping items, the gated subexpression prune coincides, on non-Var nodes,
with plain original-level membership. -/
theorem prune_iff (gctx : UngroupedCtx)
    (hg : gctx.have_non_var_grouping
      = gctx.groupClauses.any (fun g => !(isVarNode g)))
    (n : PNode) (hnv : isVarNode n = false) (sub : Nat) :
    groupMatchedGated gctx n sub ↔ (sub = 0 ∧ n ∈ gctx.groupClauses) := by
  unfold groupMatchedGated
  constructor
  · rintro ⟨_, h2, h3⟩
    exact ⟨h2, h3⟩
  · rintro ⟨h2, h3⟩
    refine ⟨?_, h2, h3⟩
    rw [hg]
    exact List.any_eq_true.mpr ⟨n, h3, by rw [hnv]; rfl⟩

mutual

/-- Equivalence of `check_ungrouped_columns_walker` with the declarative
(memo-free) violation collector: the walk succeeds iff no violation exists,
and on failure it reports exactly the first violation in traversal order. -/
theorem ungroupedWalk_spec (env : GroupEnv) (gctx : UngroupedCtx)
    (hg : gctx.have_non_var_grouping
      = gctx.groupClauses.any (fun g => !(isVarNode g)))
    (node : PNode) (sub : Nat) (inDirect : Bool) (st : UngroupedState)
    (hmemo : memoSound env st) :
    (ungroupedViols env gctx.groupClauses sub inDirect node = [] →
        ∃ st', ungroupedWalk env gctx node sub inDirect st = .ok st'
          ∧ memoSound env st')
    ∧ (∀ v rest,
        ungroupedViols env gctx.groupClauses sub inDirect node = v :: rest →
        ungroupedWalk env gctx node sub inDirect st = .error (errOfViol v)) := by
  match node with
  | .pconst =>
    refine ⟨fun _ => ⟨st, rfl, hmemo⟩, fun v rest hv => ?_⟩
    simp [ungroupedViols] at hv
  | .aggref lv d a =>
    by_cases hlv : lv = sub
    · cases inDirect with
      | true =>
        refine ⟨fun hv => ?_, fun v rest hv => ?_⟩
        · rw [ungroupedViols, if_pos hlv, if_pos rfl] at hv
          cases hv
        · rw [ungroupedViols, if_pos hlv, if_pos rfl] at hv
          cases hv
          rw [ungroupedWalk, if_pos hlv, if_pos rfl]
          rfl
      | false =>
        have ih := ungroupedWalkList_spec env gctx hg d sub true st hmemo
        refine ⟨fun hv => ?_, fun v rest hv => ?_⟩
        · rw [ungroupedViols, if_pos hlv, if_neg (by simp)] at hv
          rw [ungroupedWalk, if_pos hlv, if_neg (by simp)]
          exact ih.1 hv
        · rw [ungroupedViols, if_pos hlv, if_neg (by simp)] at hv
          rw [ungroupedWalk, if_pos hlv, if_neg (by simp)]
          exact ih.2 v rest hv
    · by_cases hgt : sub < lv
      · refine ⟨fun hv => ?_, fun v rest hv => ?_⟩
        · rw [ungroupedWalk, if_neg hlv, if_pos hgt]
          exact ⟨st, rfl, hmemo⟩
        · rw [ungroupedViols, if_neg hlv, if_pos hgt] at hv
          cases hv
      · by_cases hpr : groupMatchedGated gctx (.aggref lv d a) sub
        · have hmem := (prune_iff gctx hg _ (by rfl) sub).mp hpr
          refine ⟨fun hv => ?_, fun v rest hv => ?_⟩
          · rw [ungroupedWalk, if_neg hlv, if_neg hgt, if_pos hpr]
            exact ⟨st, rfl, hmemo⟩
          · rw [ungroupedViols, if_neg hlv, if_neg hgt, if_pos hmem] at hv
            cases hv
        · have hmem : ¬ (sub = 0 ∧ (PNode.aggref lv d a) ∈ gctx.groupClauses) :=
            fun hc => hpr ((prune_iff gctx hg _ (by rfl) sub).mpr hc)
          have ihd := ungroupedWalkList_spec env gctx hg d sub inDirect st hmemo
          refine ⟨fun hv => ?_, fun v rest hv => ?_⟩
          · rw [ungroupedViols, if_neg hlv, if_neg hgt, if_neg hmem] at hv
            rw [ungroupedWalk, if_neg hlv, if_neg hgt, if_neg hpr]
            rcases List.append_eq_nil.mp hv with ⟨hd, ha⟩
            rcases ihd.1 hd with ⟨st1, hst1, hm1⟩
            have iha := ungroupedWalkList_spec env gctx hg a sub inDirect st1 hm1
            rcases iha.1 ha with ⟨st2, hst2, hm2⟩
            refine ⟨st2, ?_, hm2⟩
            rw [hst1]
            simpa [Bind.bind, Except.bind] using hst2
          · rw [ungroupedViols, if_neg hlv, if_neg hgt, if_neg hmem] at hv
            rw [ungroupedWalk, if_neg hlv, if_neg hgt, if_neg hpr]
            cases hd : ungroupedViolsList env gctx.groupClauses sub inDirect d with
            | nil =>
              rcases ihd.1 hd with ⟨st1, hst1, hm1⟩
              have iha := ungroupedWalkList_spec env gctx hg a sub inDirect st1 hm1
              rw [hd, List.nil_append] at hv
              rw [hst1]
              simpa [Bind.bind, Except.bind] using iha.2 v rest hv
            | cons v0 r0 =>
              rw [hd, List.cons_append] at hv
              injection hv with h1 _
              have herr := ihd.2 v0 r0 hd
              rw [herr, h1]
              rfl
  | .groupingfunc lv args =>
    by_cases hle : sub ≤ lv
    · refine ⟨fun hv => ?_, fun v rest hv => ?_⟩
      · rw [ungroupedWalk, if_pos hle]
        exact ⟨st, rfl, hmemo⟩
      · rw [ungroupedViols, if_pos hle] at hv
        cases hv
    · by_cases hpr : groupMatchedGated gctx (.groupingfunc lv args) sub
      · have hmem := (prune_iff gctx hg _ (by rfl) sub).mp hpr
        refine ⟨fun hv => ?_, fun v rest hv => ?_⟩
        · rw [ungroupedWalk, if_neg hle, if_pos hpr]
          exact ⟨st, rfl, hmemo⟩
        · rw [ungroupedViols, if_neg hle, if_pos hmem] at hv
          cases hv
      · have hmem : ¬ (sub = 0 ∧ (PNode.groupingfunc lv args) ∈ gctx.groupClauses) :=
          fun hc => hpr ((prune_iff gctx hg _ (by rfl) sub).mpr hc)
        have ih := ungroupedWalkList_spec env gctx hg args sub inDirect st hmemo
        refine ⟨fun hv => ?_, fun v rest hv => ?_⟩
        · rw [ungroupedViols, if_neg hle, if_neg hmem] at hv
          rw [ungroupedWalk, if_neg hle, if_neg hpr]
          exact ih.1 hv
        · rw [ungroupedViols, if_neg hle, if_neg hmem] at hv
          rw [ungroupedWalk, if_neg hle, if_neg hpr]
          exact ih.2 v rest hv
  | .var vno vatt lv =>
    by_cases hlv : lv = sub
    · subst hlv
      by_cases hab : (PNode.var vno vatt 0) ∈ gctx.groupClauses
      · -- grouped by (a)/(b): the walker accepts through one of its two
        -- group-matching paths
        have hok : ungroupedWalk env gctx (.var vno vatt lv) lv inDirect st = .ok st := by
          by_cases h0 : lv = 0
          · subst h0
            by_cases hhave : gctx.have_non_var_grouping = true
            · rw [ungroupedWalk, if_pos ⟨hhave, rfl, hab⟩]
            · rw [ungroupedWalk, if_neg (fun hc => hhave hc.1),
                if_neg (by simp),
                if_pos ⟨Or.inl hhave, (varMatchesGroup_iff _ _ _).mpr hab⟩]
          · rw [ungroupedWalk, if_neg (fun hc => h0 hc.2.1),
              if_neg (by simp),
              if_pos ⟨Or.inr h0, (varMatchesGroup_iff _ _ _).mpr hab⟩]
        refine ⟨fun hv => ⟨st, hok, hmemo⟩, fun v rest hv => ?_⟩
        rw [ungroupedViols, if_neg (by simp), if_pos hab] at hv
        cases hv
      · -- not grouped by (a)/(b): the memo and the oracle decide
        have hpr : ¬ groupMatchedGated gctx (.var vno vatt lv) lv := by
          rintro ⟨_, h0, hmem⟩
          subst h0
          exact hab hmem
        have hb : ¬ ((¬ gctx.have_non_var_grouping = true ∨ lv ≠ 0)
            ∧ varMatchesGroup gctx.groupClauses vno vatt = true) := by
          rintro ⟨_, hm⟩
          exact hab ((varMatchesGroup_iff _ _ _).mp hm)
        by_cases hmem : vno ∈ st.func_grouped_rels
        · rcases hmemo vno hmem with ⟨hne, rte, hrte, hrel, hdep⟩
          refine ⟨fun hv => ?_, fun v rest hv => ?_⟩
          · rw [ungroupedWalk, if_neg hpr, if_neg (by simp), if_neg hb,
              if_pos hmem]
            exact ⟨st, rfl, hmemo⟩
          · rw [ungroupedViols, if_neg (by simp), if_neg hab, if_neg hne] at hv
            simp only [hrte] at hv
            rw [if_pos ⟨hrel, hdep⟩] at hv
            cases hv
        · by_cases h0 : vno = 0
          · refine ⟨fun hv => ?_, fun v rest hv => ?_⟩
            · rw [ungroupedViols, if_neg (by simp), if_neg hab, if_pos h0] at hv
              cases hv
            · rw [ungroupedViols, if_neg (by simp), if_neg hab, if_pos h0] at hv
              cases hv
              rw [ungroupedWalk, if_neg hpr, if_neg (by simp), if_neg hb,
                if_neg hmem, if_pos h0]
              rfl
          · cases hr : env.rtable[vno - 1]? with
            | none =>
              refine ⟨fun hv => ?_, fun v rest hv => ?_⟩
              · rw [ungroupedViols, if_neg (by simp), if_neg hab, if_neg h0,
                  hr] at hv
                cases hv
              · rw [ungroupedViols, if_neg (by simp), if_neg hab, if_neg h0,
                  hr] at hv
                cases hv
                rw [ungroupedWalk, if_neg hpr, if_neg (by simp), if_neg hb,
                  if_neg hmem, if_neg h0, hr]
                rfl
            | some rte =>
              by_cases hc : rte.isRelation = true ∧ env.funcDep rte.relid = true
              · refine ⟨fun hv => ?_, fun v rest hv => ?_⟩
                · rw [ungroupedWalk, if_neg hpr, if_neg (by simp), if_neg hb,
                    if_neg hmem, if_neg h0]
                  simp only [hr]
                  rw [if_pos hc]
                  refine ⟨_, rfl, ?_⟩
                  intro w hw
                  rcases List.mem_append.mp hw with hw | hw
                  · exact hmemo w hw
                  · rcases List.mem_singleton.mp hw with rfl
                    exact ⟨h0, rte, hr, hc.1, hc.2⟩
                · rw [ungroupedViols, if_neg (by simp), if_neg hab,
                    if_neg h0] at hv
                  simp only [hr] at hv
                  rw [if_pos hc] at hv
                  cases hv
              · refine ⟨fun hv => ?_, fun v rest hv => ?_⟩
                · rw [ungroupedViols, if_neg (by simp), if_neg hab,
                    if_neg h0] at hv
                  simp only [hr] at hv
                  rw [if_neg hc] at hv
                  cases hv
                · rw [ungroupedViols, if_neg (by simp), if_neg hab,
                    if_neg h0] at hv
                  simp only [hr] at hv
                  rw [if_neg hc] at hv
                  cases hv
                  rw [ungroupedWalk, if_neg hpr, if_neg (by simp), if_neg hb,
                    if_neg hmem, if_neg h0]
                  simp only [hr]
                  rw [if_neg hc]
                  rw [errOfViol]
                  by_cases hs : lv = 0
                  · rw [if_pos hs, if_pos hs]
                  · rw [if_neg hs, if_neg hs]
    · refine ⟨fun hv => ?_, fun v rest hv => ?_⟩
      · by_cases hpr : groupMatchedGated gctx (.var vno vatt lv) sub
        · rw [ungroupedWalk, if_pos hpr]
          exact ⟨st, rfl, hmemo⟩
        · rw [ungroupedWalk, if_neg hpr, if_pos hlv]
          exact ⟨st, rfl, hmemo⟩
      · rw [ungroupedViols, if_pos hlv] at hv
        cases hv
  | .windowfunc args =>
    by_cases hpr : groupMatchedGated gctx (PNode.windowfunc args) sub
    · have hmem := (prune_iff gctx hg _ (by rfl) sub).mp hpr
      refine ⟨fun hv => ?_, fun v rest hv => ?_⟩
      · rw [ungroupedWalk, if_pos hpr]
        exact ⟨st, rfl, hmemo⟩
      · rw [ungroupedViols, if_pos hmem] at hv
        cases hv
    · have hmem : ¬ (sub = 0 ∧ (PNode.windowfunc args) ∈ gctx.groupClauses) :=
        fun hc => hpr ((prune_iff gctx hg _ (by rfl) sub).mpr hc)
      have ih := ungroupedWalkList_spec env gctx hg args sub inDirect st hmemo
      refine ⟨fun hv => ?_, fun v rest hv => ?_⟩
      · rw [ungroupedViols, if_neg hmem] at hv
        rw [ungroupedWalk, if_neg hpr]
        exact ih.1 hv
      · rw [ungroupedViols, if_neg hmem] at hv
        rw [ungroupedWalk, if_neg hpr]
        exact ih.2 v rest hv
  | .funcexpr retset args =>
    by_cases hpr : groupMatchedGated gctx (PNode.funcexpr retset args) sub
    · have hmem := (prune_iff gctx hg _ (by rfl) sub).mp hpr
      refine ⟨fun hv => ?_, fun v rest hv => ?_⟩
      · rw [ungroupedWalk, if_pos hpr]
        exact ⟨st, rfl, hmemo⟩
      · rw [ungroupedViols, if_pos hmem] at hv
        cases hv
    · have hmem : ¬ (sub = 0 ∧ (PNode.funcexpr retset args) ∈ gctx.groupClauses) :=
        fun hc => hpr ((prune_iff gctx hg _ (by rfl) sub).mpr hc)
      have ih := ungroupedWalkList_spec env gctx hg args sub inDirect st hmemo
      refine ⟨fun hv => ?_, fun v rest hv => ?_⟩
      · rw [ungroupedViols, if_neg hmem] at hv
        rw [ungroupedWalk, if_neg hpr]
        exact ih.1 hv
      · rw [ungroupedViols, if_neg hmem] at hv
        rw [ungroupedWalk, if_neg hpr]
        exact ih.2 v rest hv
  | .opexpr retset args =>
    by_cases hpr : groupMatchedGated gctx (PNode.opexpr retset args) sub
    · have hmem := (prune_iff gctx hg _ (by rfl) sub).mp hpr
      refine ⟨fun hv => ?_, fun v rest hv => ?_⟩
      · rw [ungroupedWalk, if_pos hpr]
        exact ⟨st, rfl, hmemo⟩
      · rw [ungroupedViols, if_pos hmem] at hv
        cases hv
    · have hmem : ¬ (sub = 0 ∧ (PNode.opexpr retset args) ∈ gctx.groupClauses) :=
        fun hc => hpr ((prune_iff gctx hg _ (by rfl) sub).mpr hc)
      have ih := ungroupedWalkList_spec env gctx hg args sub inDirect st hmemo
      refine ⟨fun hv => ?_, fun v rest hv => ?_⟩
      · rw [ungroupedViols, if_neg hmem] at hv
        rw [ungroupedWalk, if_neg hpr]
        exact ih.1 hv
      · rw [ungroupedViols, if_neg hmem] at hv
        rw [ungroupedWalk, if_neg hpr]
        exact ih.2 v rest hv
  | .other children =>
    by_cases hpr : groupMatchedGated gctx (PNode.other children) sub
    · have hmem := (prune_iff gctx hg _ (by rfl) sub).mp hpr
      refine ⟨fun hv => ?_, fun v rest hv => ?_⟩
      · rw [ungroupedWalk, if_pos hpr]
        exact ⟨st, rfl, hmemo⟩
      · rw [ungroupedViols, if_pos hmem] at hv
        cases hv
    · have hmem : ¬ (sub = 0 ∧ (PNode.other children) ∈ gctx.groupClauses) :=
        fun hc => hpr ((prune_iff gctx hg _ (by rfl) sub).mpr hc)
      have ih := ungroupedWalkList_spec env gctx hg children sub inDirect st hmemo
      refine ⟨fun hv => ?_, fun v rest hv => ?_⟩
      · rw [ungroupedViols, if_neg hmem] at hv
        rw [ungroupedWalk, if_neg hpr]
        exact ih.1 hv
      · rw [ungroupedViols, if_neg hmem] at hv
        rw [ungroupedWalk, if_neg hpr]
        exact ih.2 v rest hv
  | .query exprs =>
    by_cases hpr : groupMatchedGated gctx (.query exprs) sub
    · have hmem := (prune_iff gctx hg _ (by rfl) sub).mp hpr
      refine ⟨fun hv => ?_, fun v rest hv => ?_⟩
      · rw [ungroupedWalk, if_pos hpr]
        exact ⟨st, rfl, hmemo⟩
      · rw [ungroupedViols, if_pos hmem] at hv
        cases hv
    · have hmem : ¬ (sub = 0 ∧ (PNode.query exprs) ∈ gctx.groupClauses) :=
        fun hc => hpr ((prune_iff gctx hg _ (by rfl) sub).mpr hc)
      have ih := ungroupedWalkList_spec env gctx hg exprs (sub + 1) inDirect st hmemo
      refine ⟨fun hv => ?_, fun v rest hv => ?_⟩
      · rw [ungroupedViols, if_neg hmem] at hv
        rw [ungroupedWalk, if_neg hpr]
        exact ih.1 hv
      · rw [ungroupedViols, if_neg hmem] at hv
        rw [ungroupedWalk, if_neg hpr]
        exact ih.2 v rest hv

theorem ungroupedWalkList_spec (env : GroupEnv) (gctx : UngroupedCtx)
    (hg : gctx.have_non_var_grouping
      = gctx.groupClauses.any (fun g => !(isVarNode g)))
    (nodes : List PNode) (sub : Nat) (inDirect : Bool) (st : UngroupedState)
    (hmemo : memoSound env st) :
    (ungroupedViolsList env gctx.groupClauses sub inDirect nodes = [] →
        ∃ st', ungroupedWalkList env gctx nodes sub inDirect st = .ok st'
          ∧ memoSound env st')
    ∧ (∀ v rest,
        ungroupedViolsList env gctx.groupClauses sub inDirect nodes = v :: rest →
        ungroupedWalkList env gctx nodes sub inDirect st = .error (errOfViol v)) := by
  match nodes with
  | [] =>
    refine ⟨fun _ => ⟨st, rfl, hmemo⟩, fun v rest hv => ?_⟩
    cases hv
  | n :: ns =>
    have ihn := ungroupedWalk_spec env gctx hg n sub inDirect st hmemo
    refine ⟨fun hv => ?_, fun v rest hv => ?_⟩
    · rw [ungroupedViolsList] at hv
      rcases List.append_eq_nil.mp hv with ⟨hn, hns⟩
      rcases ihn.1 hn with ⟨st1, hst1, hm1⟩
      have ihns := ungroupedWalkList_spec env gctx hg ns sub inDirect st1 hm1
      rcases ihns.1 hns with ⟨st2, hst2, hm2⟩
      refine ⟨st2, ?_, hm2⟩
      rw [ungroupedWalkList, hst1]
      simpa [Bind.bind, Except.bind] using hst2
    · rw [ungroupedViolsList] at hv
      cases hn : ungroupedViols env gctx.groupClauses sub inDirect n with
      | nil =>
        rcases ihn.1 hn with ⟨st1, hst1, hm1⟩
        have ihns := ungroupedWalkList_spec env gctx hg ns sub inDirect st1 hm1
        rw [hn, List.nil_append] at hv
        rw [ungroupedWalkList, hst1]
        simpa [Bind.bind, Except.bind] using ihns.2 v rest hv
      | cons v0 r0 =>
        rw [hn, List.cons_append] at hv
        injection hv with h1 _
        have herr := ihn.2 v0 r0 hn
        rw [ungroupedWalkList, herr, h1]
        rfl

end

/-- C3: `check_ungrouped_columns_walker` (entered with an empty
`func_grouped_rels` memo, or any sound one) accepts an output/HAVING
expression exactly when every same-level bound variable in it is (a) inside
a subexpression lexically equal to a GROUP BY expression, (b) matched by
range-table index and attribute number against a GROUP BY column, or
(c) functionally dependent on the grouping columns via a constraint of its
owning base relation (`ungroupedViols` transcribes those three conditions);
otherwise it raises the local-level ungrouped-column error for a variable
found at sublevel 0 and the subquery variant for a variable found inside a
subquery. -/
theorem check_ungrouped_columns_spec
    (env : GroupEnv) (gctx : UngroupedCtx) (node : PNode) (st : UngroupedState)
    (hg : gctx.have_non_var_grouping
      = gctx.groupClauses.any (fun g => !(isVarNode g)))
    (hmemo : memoSound env st) :
    ((∃ st', ungroupedWalk env gctx node 0 false st = .ok st') ↔
        ungroupedViols env gctx.groupClauses 0 false node = [])
    ∧ (∀ vno vatt,
        ungroupedWalk env gctx node 0 false st = .error (.ungroupedLocal vno vatt) →
        ∃ rest, ungroupedViols env gctx.groupClauses 0 false node
          = Viol.ungrouped 0 vno vatt :: rest)
    ∧ (∀ vno vatt,
        ungroupedWalk env gctx node 0 false st = .error (.ungroupedOuter vno vatt) →
        ∃ s rest, 0 < s ∧ ungroupedViols env gctx.groupClauses 0 false node
          = Viol.ungrouped s vno vatt :: rest) := by
  have hspec := ungroupedWalk_spec env gctx hg node 0 false st hmemo
  refine ⟨?_, ?_, ?_⟩
  · constructor
    · rintro ⟨st', hok⟩
      cases hviols : ungroupedViols env gctx.groupClauses 0 false node with
      | nil => rfl
      | cons v rest =>
        have := hspec.2 v rest hviols
        rw [hok] at this
        cases this
    · intro hv
      exact (hspec.1 hv).imp (fun st' h => h.1)
  · intro vno vatt herr
    cases hviols : ungroupedViols env gctx.groupClauses 0 false node with
    | nil =>
      rcases hspec.1 hviols with ⟨st', hok, _⟩
      rw [herr] at hok
      cases hok
    | cons v rest =>
      have hv := hspec.2 v rest hviols
      rw [herr] at hv
      match v, hv with
      | .ungrouped s a b, hv =>
        rw [errOfViol] at hv
        by_cases hs : s = 0
        · rw [if_pos hs] at hv
          injection hv with hv
          injection hv with h1 h2
          subst h1
          subst h2
          refine ⟨rest, ?_⟩
          rw [hs]
        · rw [if_neg hs] at hv
          injection hv with hv
          cases hv
      | .directNest, hv =>
        rw [errOfViol] at hv
        injection hv with hv
        cases hv
      | .badVar a, hv =>
        rw [errOfViol] at hv
        injection hv with hv
        cases hv
  · intro vno vatt herr
    cases hviols : ungroupedViols env gctx.groupClauses 0 false node with
    | nil =>
      rcases hspec.1 hviols with ⟨st', hok, _⟩
      rw [herr] at hok
      cases hok
    | cons v rest =>
      have hv := hspec.2 v rest hviols
      rw [herr] at hv
      match v, hv with
      | .ungrouped s a b, hv =>
        rw [errOfViol] at hv
        by_cases hs : s = 0
        · rw [if_pos hs] at hv
          injection hv with hv
          cases hv
        · rw [if_neg hs] at hv
          injection hv with hv
          injection hv with h1 h2
          subst h1
          subst h2
          exact ⟨s, rest, Nat.pos_of_ne_zero hs, rfl⟩
      | .directNest, hv =>
        rw [errOfViol] at hv
        injection hv with hv
        cases hv
      | .badVar a, hv =>
        rw [errOfViol] at hv
        injection hv with hv
        cases hv

/-- Witness for C3 on the specification's own example pair
(`SELECT a, b FROM t GROUP BY a` rejected naming column b;
`SELECT a, count(b) FROM t GROUP BY a` accepted): range table with one base
relation (id 10), oracle refusing functional dependencies. -/
theorem check_ungrouped_columns_spec_witness :
    (∃ rest,
      ungroupedViols ⟨[⟨10, true⟩], fun _ => false⟩ [PNode.var 1 1 0] 0 false
        (PNode.other [PNode.var 1 1 0, PNode.var 1 2 0])
        = Viol.ungrouped 0 1 2 :: rest)
    ∧ ungroupedViols ⟨[⟨10, true⟩], fun _ => false⟩ [PNode.var 1 1 0] 0 false
        (PNode.other [PNode.var 1 1 0, PNode.aggref 0 [] [PNode.var 1 2 0]])
        = [] := by
  constructor
  · exact (check_ungrouped_columns_spec ⟨[⟨10, true⟩], fun _ => false⟩
      ⟨[PNode.var 1 1 0], false⟩
      (PNode.other [PNode.var 1 1 0, PNode.var 1 2 0]) ⟨[], []⟩ rfl
      (fun v hv => absurd hv (List.not_mem_nil v))).2.1 1 2 rfl
  · have h := (check_ungrouped_columns_spec ⟨[⟨10, true⟩], fun _ => false⟩
      ⟨[PNode.var 1 1 0], false⟩
      (PNode.other [PNode.var 1 1 0, PNode.aggref 0 [] [PNode.var 1 2 0]])
      ⟨[], []⟩ rfl (fun v hv => absurd hv (List.not_mem_nil v))).1
    exact h.mp ⟨⟨[], []⟩, rfl⟩

end ParseAgg

namespace ParseRelation

/-! ## Name resolution (`scanNameSpaceForRefname`, `scanRTEForColumn`,
`colNameToVar`, src/parse_relation.cpp)

Catalog interaction inside `scanRTEForColumn` (the `ts_make_var` fallback for
the hidden time-series distribution column, `specialAttNum` plus the
syscache/relkind validation of system columns) is carried as per-RTE oracle
fields, mirroring the catalog collaborator interface of §6. -/

/-- The macro `TS_PSEUDO_DIST_COLUMN` (external constant; only its identity
matters here). -/
def TS_PSEUDO_DIST_COLUMN : String := "ts_pseudo_distcol"

/-- The slice of a `RangeTblEntry` used by the three lookup routines. -/
structure RTE where
  /-- `eref->aliasname` -/
  aliasname : String
  /-- `eref->colnames` (dropped columns as empty strings) -/
  colnames : List String
  /-- `isexcluded` hidden-column flag -/
  isexcluded : Bool
  /-- START WITH bookkeeping flags -/
  swAborted : Bool
  swConverted : Bool
  /-- `rtekind == RTE_RELATION && relkind` is neither foreign table nor stream -/
  sysColCandidate : Bool
  /-- oracle for `specialAttNum` (0 = `InvalidAttrNumber`, system columns
  negative) -/
  specialAttNum : String → Int
  /-- oracle for the syscache + relkind definedness test of a system column -/
  sysColDefined : Int → Bool
  /-- oracle for `ts_make_var` on the hidden distribution column: the
  attribute number it produces, when visible -/
  tsVar : Option Int

/-- A resolved column: the attribute number `make_var` would fill in
(system columns negative). -/
abbrev PVar := Int

/-- Errors the lookup routines can raise. -/
inductive NameErr where
  /-- "column reference ... is ambiguous" -/
  | ambiguousColumn (colname : String) : NameErr
  /-- "table reference ... is ambiguous" -/
  | ambiguousTable (refname : String) : NameErr
  /-- "invalid reference to FROM-clause entry for table ..." -/
  | invalidLateral (aliasname : String) : NameErr
  /-- "cannot use system column ... in column generation expression" -/
  | genColSysCol (colname : String) : NameErr

/-- One `ParseNamespaceItem`. -/
structure NSItem where
  rte : RTE
  lateral_only : Bool
  lateral_ok : Bool

/-- The per-scope slice of `ParseState` these routines read. -/
structure PScope where
  varnamespace : List NSItem
  relnamespace : List NSItem
  rtable : List RTE
  lateral_active : Bool
  use_level : Bool
  hasStartWith : Bool

/-- The user-column `foreach` of `scanRTEForColumn`, with its running
`attnum` counter and single-result accumulator. -/
def rteColLoop (rte : RTE) (colname : String) (omit_excluded : Bool) :
    List String → Nat → Option PVar → Except NameErr (Option PVar)
  | [], _, result => .ok result
  | c :: cs, attnum, result =>
    let attnum := attnum + 1
    if omit_excluded ∧ rte.isexcluded then rteColLoop rte colname omit_excluded cs attnum result
    else if c = colname then
      if result.isSome then .error (.ambiguousColumn colname)
      else if colname = TS_PSEUDO_DIST_COLUMN then
        match rte.tsVar with
        | none => rteColLoop rte colname omit_excluded cs attnum result
        | some v => rteColLoop rte colname omit_excluded cs attnum (some v)
      else rteColLoop rte colname omit_excluded cs attnum (some (attnum : Int))
    else rteColLoop rte colname omit_excluded cs attnum result

/-- `scanRTEForColumn` (src/parse_relation.cpp:627).  `genCol` is
`pstate->p_expr_kind == EXPR_KIND_GENERATED_COLUMN`. -/
def scanRTEForColumn (genCol : Bool) (rte : RTE) (colname : String)
    (omit_excluded : Bool) : Except NameErr (Option PVar) := do
  match ← rteColLoop rte colname omit_excluded rte.colnames 0 none with
  | some r => .ok (some r)
  | none =>
    if rte.sysColCandidate then
      let attnum := rte.specialAttNum colname
      if genCol ∧ attnum < 0 then .error (.genColSysCol colname)
      else if attnum ≠ 0 then
        if rte.sysColDefined attnum then .ok (some attnum) else .ok none
      else .ok none
    else .ok none

/-- The namespace `foreach` of `colNameToVar`, with the `use_level` break
that silently keeps the first match. -/
def colNameScopeLoop (genCol : Bool) (scope : PScope) (colname : String) :
    List NSItem → Option (RTE × PVar) → Except NameErr (Option (RTE × PVar))
  | [], result => .ok result
  | item :: rest, result =>
    if item.lateral_only ∧ ¬ scope.lateral_active then
      colNameScopeLoop genCol scope colname rest result
    else match scanRTEForColumn genCol item.rte colname true with
      | .error e => .error e
      | .ok none => colNameScopeLoop genCol scope colname rest result
      | .ok (some v) =>
        if result.isSome ∧ scope.use_level then .ok result
        else if result.isSome then .error (.ambiguousColumn colname)
        else if item.lateral_only ∧ ¬ item.lateral_ok then
          .error (.invalidLateral item.rte.aliasname)
        else colNameScopeLoop genCol scope colname rest (some (item.rte, v))

/-- `colNameToVar` (src/parse_relation.cpp:734): walk the scope chain
outward; stop at the first scope producing a result, or immediately when
`localonly`. -/
def colNameToVar (genCol : Bool) (chain : List PScope) (colname : String)
    (localonly : Bool) : Except NameErr (Option (RTE × PVar)) :=
  match chain with
  | [] => .ok none
  | scope :: parents => do
    match ← colNameScopeLoop genCol scope colname scope.varnamespace none with
    | some r => .ok (some r)
    | none =>
      if localonly then .ok none
      else colNameToVar genCol parents colname localonly

/-- The relation-namespace `foreach` of `scanNameSpaceForRefname`. -/
def refnameScanLoop (scope : PScope) (refname : String) :
    List NSItem → Option RTE → Except NameErr (Option RTE)
  | [], result => .ok result
  | item :: rest, result =>
    if item.lateral_only ∧ ¬ scope.lateral_active then
      refnameScanLoop scope refname rest result
    else if item.rte.aliasname = refname then
      if result.isSome then .error (.ambiguousTable refname)
      else if item.lateral_only ∧ ¬ item.lateral_ok then
        .error (.invalidLateral refname)
      else refnameScanLoop scope refname rest (some item.rte)
    else refnameScanLoop scope refname rest result

/-- `scanNameSpaceForRefname` (src/parse_relation.cpp:267), including the
post-loop START WITH CTE replacement. -/
def scanNameSpaceForRefname (scope : PScope) (refname : String) :
    Except NameErr (Option RTE) := do
  match ← refnameScanLoop scope refname scope.relnamespace none with
  | none => .ok none
  | some rte =>
    if scope.hasStartWith ∧ rte.swAborted then
      match scope.rtable.find? (fun t => t.swConverted) with
      | some tbl => .ok (some tbl)
      | none => .ok (some rte)
    else .ok (some rte)

/-- The resolved column `scanRTEForColumn` finds in one RTE, when any. -/
def scanHit (genCol : Bool) (colname : String) (it : NSItem) : Option PVar :=
  match scanRTEForColumn genCol it.rte colname true with
  | .ok (some v) => some v
  | _ => none

/-- Whether an RTE provides the column (a "visible candidate"). -/
def providesB (genCol : Bool) (colname : String) (it : NSItem) : Bool :=
  (scanHit genCol colname it).isSome

theorem refnameScanLoop_acc (scope : PScope) (refname : String) (r : RTE) :
    ∀ ns : List NSItem, (∀ it ∈ ns, it.lateral_only = false) →
    refnameScanLoop scope refname ns (some r) =
      (match ns.filter (fun it => it.rte.aliasname == refname) with
       | [] => Except.ok (some r)
       | _ :: _ => Except.error (.ambiguousTable refname)) := by
  intro ns
  induction ns with
  | nil => intro _; rfl
  | cons it rest ih =>
    intro hl
    have hit := hl it (List.mem_cons_self it rest)
    have hrest := fun x hx => hl x (List.mem_cons_of_mem it hx)
    rw [refnameScanLoop, if_neg (by rw [hit]; simp)]
    by_cases hname : it.rte.aliasname = refname
    · rw [if_pos hname, if_pos (by rfl)]
      have hfil : ((it :: rest).filter (fun it => it.rte.aliasname == refname))
          = it :: rest.filter (fun it => it.rte.aliasname == refname) := by
        simp [List.filter_cons, hname]
      rw [hfil]
    · rw [if_neg hname, ih hrest]
      have hfil : ((it :: rest).filter (fun it => it.rte.aliasname == refname))
          = rest.filter (fun it => it.rte.aliasname == refname) := by
        simp [List.filter_cons, hname]
      rw [hfil]

theorem refnameScanLoop_none (scope : PScope) (refname : String) :
    ∀ ns : List NSItem, (∀ it ∈ ns, it.lateral_only = false) →
    refnameScanLoop scope refname ns none =
      (match ns.filter (fun it => it.rte.aliasname == refname) with
       | [] => Except.ok none
       | it :: [] => Except.ok (some it.rte)
       | _ :: _ :: _ => Except.error (.ambiguousTable refname)) := by
  intro ns
  induction ns with
  | nil => intro _; rfl
  | cons it rest ih =>
    intro hl
    have hit := hl it (List.mem_cons_self it rest)
    have hrest := fun x hx => hl x (List.mem_cons_of_mem it hx)
    rw [refnameScanLoop, if_neg (by rw [hit]; simp)]
    by_cases hname : it.rte.aliasname = refname
    · rw [if_pos hname, if_neg (by simp), if_neg (by rw [hit]; simp),
        refnameScanLoop_acc scope refname it.rte rest hrest]
      have hfil : ((it :: rest).filter (fun it => it.rte.aliasname == refname))
          = it :: rest.filter (fun it => it.rte.aliasname == refname) := by
        simp [List.filter_cons, hname]
      rw [hfil]
      cases hc : rest.filter (fun it => it.rte.aliasname == refname) with
      | nil => rfl
      | cons a b => rfl
    · rw [if_neg hname, ih hrest]
      have hfil : ((it :: rest).filter (fun it => it.rte.aliasname == refname))
          = rest.filter (fun it => it.rte.aliasname == refname) := by
        simp [List.filter_cons, hname]
      rw [hfil]

theorem colNameScopeLoop_acc (genCol : Bool) (scope : PScope) (colname : String)
    (r : RTE × PVar) :
    ∀ ns : List NSItem, (∀ it ∈ ns, it.lateral_only = false) →
    (∀ it ∈ ns, ∃ o, scanRTEForColumn genCol it.rte colname true = .ok o) →
    colNameScopeLoop genCol scope colname ns (some r) =
      (if scope.use_level = true then Except.ok (some r)
       else match ns.filter (providesB genCol colname) with
       | [] => Except.ok (some r)
       | _ :: _ => Except.error (.ambiguousColumn colname)) := by
  intro ns
  induction ns with
  | nil =>
    intro _ _
    by_cases hu : scope.use_level = true
    · rw [if_pos hu]; rfl
    · rw [if_neg hu]; rfl
  | cons it rest ih =>
    intro hl hs
    have hit := hl it (List.mem_cons_self it rest)
    have hrest := fun x hx => hl x (List.mem_cons_of_mem it hx)
    have hsit := hs it (List.mem_cons_self it rest)
    have hsrest := fun x hx => hs x (List.mem_cons_of_mem it hx)
    rw [colNameScopeLoop, if_neg (by rw [hit]; simp)]
    rcases hsit with ⟨o, ho⟩
    cases o with
    | none =>
      simp only [ho]
      have hpit : providesB genCol colname it = false := by
        simp [providesB, scanHit, ho]
      rw [ih hrest hsrest]
      have hfil : ((it :: rest).filter (providesB genCol colname))
          = rest.filter (providesB genCol colname) := by
        simp [List.filter_cons, hpit]
      rw [hfil]
    | some v =>
      simp only [ho]
      have hpit : providesB genCol colname it = true := by
        simp [providesB, scanHit, ho]
      have hfil : ((it :: rest).filter (providesB genCol colname))
          = it :: rest.filter (providesB genCol colname) := by
        simp [List.filter_cons, hpit]
      by_cases hu : scope.use_level = true
      · rw [if_pos (show (some r).isSome = true ∧ scope.use_level = true from ⟨rfl, hu⟩), if_pos hu]
      · rw [if_neg (show ¬ ((some r).isSome = true ∧ scope.use_level = true) from fun hc => hu hc.2),
          if_pos (show (some r).isSome = true from rfl), if_neg hu, hfil]

theorem colNameScopeLoop_none (genCol : Bool) (scope : PScope) (colname : String) :
    ∀ ns : List NSItem, (∀ it ∈ ns, it.lateral_only = false) →
    (∀ it ∈ ns, ∃ o, scanRTEForColumn genCol it.rte colname true = .ok o) →
    colNameScopeLoop genCol scope colname ns none =
      (match ns.filter (providesB genCol colname) with
       | [] => Except.ok none
       | it :: rest =>
         if scope.use_level = true then
           Except.ok (some (it.rte, (scanHit genCol colname it).getD 0))
         else match rest with
         | [] => Except.ok (some (it.rte, (scanHit genCol colname it).getD 0))
         | _ :: _ => Except.error (.ambiguousColumn colname)) := by
  intro ns
  induction ns with
  | nil => intro _ _; rfl
  | cons it rest ih =>
    intro hl hs
    have hit := hl it (List.mem_cons_self it rest)
    have hrest := fun x hx => hl x (List.mem_cons_of_mem it hx)
    rcases hs it (List.mem_cons_self it rest) with ⟨o, ho⟩
    have hsrest := fun x hx => hs x (List.mem_cons_of_mem it hx)
    rw [colNameScopeLoop, if_neg (by rw [hit]; simp)]
    cases o with
    | none =>
      simp only [ho]
      have hpit : providesB genCol colname it = false := by
        simp [providesB, scanHit, ho]
      rw [ih hrest hsrest]
      have hfil : ((it :: rest).filter (providesB genCol colname))
          = rest.filter (providesB genCol colname) := by
        simp [List.filter_cons, hpit]
      rw [hfil]
    | some v =>
      simp only [ho]
      have hpit : providesB genCol colname it = true := by
        simp [providesB, scanHit, ho]
      have hhit : scanHit genCol colname it = some v := by
        simp [scanHit, ho]
      have hfil : ((it :: rest).filter (providesB genCol colname))
          = it :: rest.filter (providesB genCol colname) := by
        simp [List.filter_cons, hpit]
      rw [if_neg (fun hc : (none : Option (RTE × PVar)).isSome = true ∧ _ => by simp at hc),
        if_neg (fun hc : (none : Option (RTE × PVar)).isSome = true => by simp at hc),
        if_neg (by rw [hit]; simp),
        colNameScopeLoop_acc genCol scope colname (it.rte, v) rest hrest hsrest,
        hfil]
      simp only [hhit, Option.getD_some]

/-- C1 (amended): with ordinary (non-LATERAL-only) namespaces and no hard
failure inside the per-RTE scans, (i) an unqualified table reference
matching two or more visible Range Entries always raises "table reference
... is ambiguous"; (ii) with `use_level` off, an unqualified column
reference matching two or more visible Range Entries in the same scope
raises "column reference ... is ambiguous"; (iii) with `use_level` on (the
MERGE dual-namespace override), the first matching Range Entry in namespace
order is returned silently instead. -/
theorem name_resolution_ambiguity
    (genCol : Bool) (scope : PScope) (colname refname : String)
    (hlat1 : ∀ it ∈ scope.relnamespace, it.lateral_only = false)
    (hlat2 : ∀ it ∈ scope.varnamespace, it.lateral_only = false)
    (hscan : ∀ it ∈ scope.varnamespace,
      ∃ o, scanRTEForColumn genCol it.rte colname true = .ok o) :
    (∀ a b rest2,
      scope.relnamespace.filter (fun it => it.rte.aliasname == refname)
        = a :: b :: rest2 →
      scanNameSpaceForRefname scope refname = .error (.ambiguousTable refname))
    ∧ (scope.use_level = false →
      ∀ a b rest2,
        scope.varnamespace.filter (providesB genCol colname) = a :: b :: rest2 →
        colNameScopeLoop genCol scope colname scope.varnamespace none
          = .error (.ambiguousColumn colname))
    ∧ (scope.use_level = true →
      ∀ a rest2,
        scope.varnamespace.filter (providesB genCol colname) = a :: rest2 →
        colNameScopeLoop genCol scope colname scope.varnamespace none
          = .ok (some (a.rte, (scanHit genCol colname a).getD 0))) := by
  refine ⟨?_, ?_, ?_⟩
  · intro a b rest2 hfil
    rw [scanNameSpaceForRefname]
    rw [refnameScanLoop_none scope refname scope.relnamespace hlat1, hfil]
    rfl
  · intro hu a b rest2 hfil
    rw [colNameScopeLoop_none genCol scope colname scope.varnamespace hlat2 hscan,
      hfil]
    simp [hu]
  · intro hu a rest2 hfil
    rw [colNameScopeLoop_none genCol scope colname scope.varnamespace hlat2 hscan,
      hfil]
    simp [hu]

/-- A base-relation Range Entry with alias `nm` and the single user column
"c"; all catalog oracles negative. -/
def cexRte (nm : String) : RTE :=
  ⟨nm, ["c"], false, false, false, false, fun _ => 0, fun _ => false, none⟩

def cexItem (nm : String) : NSItem := ⟨cexRte nm, false, true⟩

/-- A scope with `use_level` ON and two visible entries both providing
column "c". -/
def cexScopeUL : PScope :=
  ⟨[cexItem "t1", cexItem "t2"], [], [], false, true, false⟩

/-- A scope with `use_level` OFF: two entries provide column "c", and two
entries share the alias "t". -/
def cexScopeStd : PScope :=
  ⟨[cexItem "t1", cexItem "t2"], [cexItem "t", cexItem "t"], [], false, false,
    false⟩

/-- C1 counterexample: with the parse state's `use_level` flag set (the
MERGE dual-namespace case), `colNameToVar` silently returns the FIRST of
two matching candidates at the same scope level instead of raising the
ambiguity error, refuting "never silently returns one of the matching
candidates". -/
theorem colNameToVar_use_level_cex :
    providesB false "c" (cexItem "t1") = true
    ∧ providesB false "c" (cexItem "t2") = true
    ∧ colNameToVar false [cexScopeUL] "c" false
        = .ok (some ((cexItem "t1").rte, 1)) :=
  ⟨rfl, rfl, rfl⟩

/-- Witness for C1 at concrete two-candidate scopes. -/
theorem name_resolution_ambiguity_witness :
    scanNameSpaceForRefname cexScopeStd "t" = .error (.ambiguousTable "t")
    ∧ colNameScopeLoop false cexScopeStd "c" cexScopeStd.varnamespace none
        = .error (.ambiguousColumn "c") := by
  have hlat1 : ∀ it ∈ cexScopeStd.relnamespace, it.lateral_only = false := by
    intro it hit
    rcases List.mem_cons.mp hit with rfl | hit
    · rfl
    · rcases List.mem_cons.mp hit with rfl | hit
      · rfl
      · cases hit
  have hlat2 : ∀ it ∈ cexScopeStd.varnamespace, it.lateral_only = false := by
    intro it hit
    rcases List.mem_cons.mp hit with rfl | hit
    · rfl
    · rcases List.mem_cons.mp hit with rfl | hit
      · rfl
      · cases hit
  have hscan : ∀ it ∈ cexScopeStd.varnamespace,
      ∃ o, scanRTEForColumn false it.rte "c" true = .ok o := by
    intro it hit
    rcases List.mem_cons.mp hit with rfl | hit
    · exact ⟨some 1, rfl⟩
    · rcases List.mem_cons.mp hit with rfl | hit
      · exact ⟨some 1, rfl⟩
      · cases hit
  have h := name_resolution_ambiguity false cexScopeStd "c" "t" hlat1 hlat2 hscan
  exact ⟨h.1 (cexItem "t") (cexItem "t") [] rfl,
    h.2.1 rfl (cexItem "t1") (cexItem "t2") [] rfl⟩

end ParseRelation

namespace ParseTarget

/-! ## Assignment coercion (`transformAssignedExpr`, src/parse_target.cpp)

The no-indirection branch of `transformAssignedExpr` from the coercion
attempts (lines 482-533).  The external coercion service
(`coerce_to_settype`, `coerce_to_target_type`) and the client-logic
create-procedure hook are oracles (§6); `NULL` results become `none`. -/

/-- The value the tail manipulates: some coercion service product, or the
`makeConst(GetTypeZeroValue(...))` zero-value constant. -/
inductive TExpr where
  | coerced (tag : Nat) : TExpr
  | zeroConst : TExpr
deriving DecidableEq, Repr

/-- Errors this branch can raise. -/
inductive AssignErr where
  /-- the encrypted-column variant of the type-mismatch error -/
  | encryptedMismatch : AssignErr
  /-- "column ... is of type ... but expression is of type ..." -/
  | datatypeMismatch : AssignErr
deriving DecidableEq, Repr

/-- Inputs of the branch: the selector flags evaluated before it and the
oracle results of every external call it can make. -/
structure AssignEnv where
  /-- `type_is_set(attrtype)` -/
  type_is_set : Bool
  /-- the `is_all_satisfied` TD-truncation condition (lines 478-480) -/
  is_all_satisfied : Bool
  /-- result of `coerce_to_settype(...)` -/
  coerceSet : Option TExpr
  /-- result of the TD-truncation `coerce_to_target_type(..., EXPLICIT_CAST)` -/
  coerceTd : Option TExpr
  /-- result of the ordinary `coerce_to_target_type(..., IMPLICIT_CAST)` -/
  coerceImplicit : Option TExpr
  /-- `IsClientLogicType(attrtype) && IsA(orig_expr, Param) &&
  p_create_proc_insert_hook != NULL` -/
  isClientLogicParamHook : Bool
  /-- result of the retried coercion after the hook ran -/
  coerceAfterHook : Option TExpr
  /-- `attrtype` is one of the encrypted-column types -/
  isEncryptedColType : Bool
  /-- the probing `coerce_to_target_type` inside `invalid_encrypted_column`
  succeeded -/
  encryptedProbeOk : Bool
  /-- `pstate->p_has_ignore` -/
  p_has_ignore : Bool

/-- The coercion attempt selected by the branch (lines 482-493). -/
def assignCoerce (env : AssignEnv) : Option TExpr :=
  if env.type_is_set then env.coerceSet
  else if env.is_all_satisfied then env.coerceTd
  else env.coerceImplicit

/-- The tail of `transformAssignedExpr`'s no-indirection branch (lines
482-533), returning the assigned expression plus the emitted warnings. -/
def transformAssignedExprTail (env : AssignEnv) :
    Except AssignErr (TExpr × List String) :=
  let expr0 := assignCoerce env
  let expr1 :=
    match expr0 with
    | none => if env.isClientLogicParamHook then env.coerceAfterHook else none
    | some e => some e
  match expr1 with
  | some e => .ok (e, [])
  | none =>
    if env.isEncryptedColType ∧ env.encryptedProbeOk then .error .encryptedMismatch
    else if env.p_has_ignore = false then .error .datatypeMismatch
    else .ok (.zeroConst,
      ["column is of type ... but expression is of type ... Data truncated automatically."])

/-- C7: when assignment coercion fails (`NULL` from the coercion service)
and no special-case recovery applies (no client-logic hook retry succeeds,
not the encrypted-column case), then with the ignore mode off a fatal
type-mismatch error is raised and no value is substituted, and with the
ignore mode on the assigned expression becomes the column type's zero-value
constant and only a warning is emitted. -/
theorem transformAssignedExpr_failure_modes (env : AssignEnv)
    (hfail : assignCoerce env = none)
    (hhook : env.isClientLogicParamHook = true → env.coerceAfterHook = none)
    (henc : ¬ (env.isEncryptedColType = true ∧ env.encryptedProbeOk = true)) :
    (env.p_has_ignore = false →
      transformAssignedExprTail env = .error .datatypeMismatch)
    ∧ (env.p_has_ignore = true →
      transformAssignedExprTail env = .ok (.zeroConst,
        ["column is of type ... but expression is of type ... Data truncated automatically."])) := by
  have hexpr1 : (match assignCoerce env with
      | none => if env.isClientLogicParamHook then env.coerceAfterHook else none
      | some e => some e) = (none : Option TExpr) := by
    rw [hfail]
    by_cases hh : env.isClientLogicParamHook = true
    · rw [if_pos hh]
      exact hhook hh
    · rw [if_neg hh]
  constructor
  · intro hig
    simp only [transformAssignedExprTail, hexpr1]
    rw [if_neg henc, if_pos hig]
  · intro hig
    simp only [transformAssignedExprTail, hexpr1]
    rw [if_neg henc, if_neg (by rw [hig]; simp)]

/-- Witness for C7: both ignore modes at a concrete failing environment. -/
theorem transformAssignedExpr_failure_modes_witness :
    transformAssignedExprTail
      ⟨false, false, none, none, none, false, none, false, false, false⟩
      = .error .datatypeMismatch
    ∧ transformAssignedExprTail
      ⟨false, false, none, none, none, false, none, false, false, true⟩
      = .ok (.zeroConst,
        ["column is of type ... but expression is of type ... Data truncated automatically."]) := by
  constructor
  · exact (transformAssignedExpr_failure_modes
      ⟨false, false, none, none, none, false, none, false, false, false⟩
      rfl (fun h => by cases h) (fun hc => by cases hc.1)).1 rfl
  · exact (transformAssignedExpr_failure_modes
      ⟨false, false, none, none, none, false, none, false, false, true⟩
      rfl (fun h => by cases h) (fun hc => by cases hc.1)).2 rfl

end ParseTarget

namespace ParseStartWith

/-! ## Hierarchical queries (`src/parse_startwith.cpp`)

START WITH / CONNECT BY analysis rewrites the clause into a recursive CTE
named `"tmp_reuslt"` (sic).  We embed the raw (pre-analysis) parse trees the
file manipulates as one inductive `Raw`, covering exactly the node types the
walkers of the file dispatch on, with one catch-all per walker's `default:`
arm expressed by the node kinds not listed there erroring.  Children follow
`raw_expression_tree_walker` (nodeFuncs.cpp): `ColumnRef`, `A_Const`,
`ParamRef` and `Rownum` have no walked children; `A_Expr` walks
`lexpr`/`rexpr`; `NullTest`, `TypeCast`, `CollateClause`, `A_Indirection`
walk `arg`; `SubLink` walks `testexpr` (our trees carry no sub-select);
`CoalesceExpr` and `FuncCall` walk their argument list *as a `T_List` node*;
`JoinExpr` walks `larg`, `rarg`, `quals`. -/

inductive AKind where
  | opK    -- AEXPR_OP
  | andK   -- AEXPR_AND
  | orK    -- AEXPR_OR
  | inK    -- AEXPR_IN
  | notK   -- AEXPR_NOT
  | otherK -- every other A_Expr kind (hits the walkers' default: arms)
  deriving DecidableEq, Repr

inductive Raw where
  | columnRef (fields : List String) (priorFlag : Bool)
  | aconstInt (val : Int)             -- A_Const with T_Integer value
  | aconstBool (val : Bool)           -- boolean constant (makeBoolAConst)
  | aconstOther                       -- any other A_Const
  | paramRef
  | rownum                            -- T_Rownum
  | aexpr (kind : AKind) (lexpr rexpr : Option Raw)
  | nullTest (arg : Option Raw)
  | subLink (testexpr : Option Raw)
  | coalesce (args : List Raw)        -- T_CoalesceExpr
  | collateClause (arg : Option Raw)
  | typeCast (arg : Option Raw)
  | listExpr (items : List Raw)       -- T_List appearing as an expression node
  | arrayExpr (elements : List Raw)   -- T_A_ArrayExpr
  | funcCall (args : List Raw)
  | indirection (arg : Option Raw)    -- T_A_Indirection
  | rangeVar (schemaname : Option String) (relname : String)
  | joinExpr (jtInner : Bool) (isNatural : Bool) (larg rarg : Option Raw)
      (quals : Option Raw)
  | rangeTableSample
  | rangeTimeCapsule

mutual

/-- Structural equality on `Raw` (C compares these trees with `equal()`,
which is deep structural equality). -/
def rawBeq : Raw → Raw → Bool
  | .columnRef f p, .columnRef f' p' => f == f' && p == p'
  | .aconstInt v, .aconstInt v' => v == v'
  | .aconstBool b, .aconstBool b' => b == b'
  | .aconstOther, .aconstOther => true
  | .paramRef, .paramRef => true
  | .rownum, .rownum => true
  | .aexpr k l r, .aexpr k' l' r' =>
      k == k' && rawOptBeq l l' && rawOptBeq r r'
  | .nullTest a, .nullTest a' => rawOptBeq a a'
  | .subLink t, .subLink t' => rawOptBeq t t'
  | .coalesce xs, .coalesce ys => rawListBeq xs ys
  | .collateClause a, .collateClause a' => rawOptBeq a a'
  | .typeCast a, .typeCast a' => rawOptBeq a a'
  | .listExpr xs, .listExpr ys => rawListBeq xs ys
  | .arrayExpr xs, .arrayExpr ys => rawListBeq xs ys
  | .funcCall xs, .funcCall ys => rawListBeq xs ys
  | .indirection a, .indirection a' => rawOptBeq a a'
  | .rangeVar s n, .rangeVar s' n' => s == s' && n == n'
  | .joinExpr j n l r q, .joinExpr j' n' l' r' q' =>
      j == j' && n == n' && rawOptBeq l l' && rawOptBeq r r' && rawOptBeq q q'
  | .rangeTableSample, .rangeTableSample => true
  | .rangeTimeCapsule, .rangeTimeCapsule => true
  | _, _ => false

/-- `rawBeq` lifted to `Option` (NULL equals only NULL). -/
def rawOptBeq : Option Raw → Option Raw → Bool
  | none, none => true
  | some a, some b => rawBeq a b
  | _, _ => false

/-- `rawBeq` lifted to lists of equal length. -/
def rawListBeq : List Raw → List Raw → Bool
  | [], [] => true
  | a :: as, b :: bs => rawBeq a b && rawListBeq as bs
  | _, _ => false

end

/-- ASCII-only `tolower`, as `pg_strcasecmp` folds bytes. -/
def lowerStr (s : String) : String :=
  String.mk (s.data.map Char.toLower)

/-- `pg_strcasecmp(a, b) == 0`. -/
def strieq (a b : String) : Bool := lowerStr a == lowerStr b

/-- `NameListToString`: joins the field strings with `"."`. -/
def nameListToString : List String → String
  | [] => ""
  | [x] => x
  | x :: rest => x ++ "." ++ nameListToString rest

/-- `is_cref_by_name(expr, col_name)`: expr is a `ColumnRef` whose
dotted field string equals `col_name` case-insensitively. -/
def isCrefByName (expr : Raw) (colName : String) : Bool :=
  match expr with
  | .columnRef fields _ => strieq (nameListToString fields) colName
  | _ => false

/-- `CONNECT_BY_ROWNUM_FAKEVALUE`.  Modelled from the spec: the constant is
defined in a header outside `src/`; only its value as a sentinel integer
distinct from `CONNECT_BY_LEVEL_FAKEVALUE` and from ordinary literals
matters to the analysis in this file. -/
def CONNECT_BY_ROWNUM_FAKEVALUE : Int := 2147483647

/-- `CONNECT_BY_LEVEL_FAKEVALUE`.  Modelled from the spec, as above. -/
def CONNECT_BY_LEVEL_FAKEVALUE : Int := 2147483646

/-- `makeIntConst(val, -1)`. -/
def makeIntConst (val : Int) : Raw := .aconstInt val

/-- `makeBoolAConst(true, -1)`: a constant-true expression node. -/
def makeBoolAConst (b : Bool) : Raw := .aconstBool b

/-! ### Fake-value replacement (`tryReplaceFakeValue`, `replaceListFakeValue`)

The C functions return the original pointer when nothing was replaced and a
fresh node otherwise; callers detect replacement by pointer comparison.  We
return `none` for "unchanged" and `some replacement` otherwise. -/

mutual

/-- `tryReplaceFakeValue`: `Rownum` and `ColumnRef "level"` become fake
integer constants; a `List` is replaced iff one of its elements is. -/
def tryReplaceFakeValue : Raw → Option Raw
  | .rownum => some (makeIntConst CONNECT_BY_ROWNUM_FAKEVALUE)
  | .columnRef fields p =>
      if isCrefByName (.columnRef fields p) "level" then
        some (makeIntConst CONNECT_BY_LEVEL_FAKEVALUE)
      else none
  | .listExpr items => (replaceListFakeValue items).map .listExpr
  | _ => none

/-- `replaceListFakeValue`: element-wise top replacement; `some` iff some
element changed. -/
def replaceListFakeValue : List Raw → Option (List Raw)
  | [] => none
  | e :: rest =>
      match tryReplaceFakeValue e, replaceListFakeValue rest with
      | none, none => none
      | oe, orest => some (oe.getD e :: orest.getD rest)

end
/-! ### `pseudo_level_rownum_walker`

Invoked as `raw_expression_tree_walker(connectByExpr, walker, connectByExpr)`,
so the callback runs on every *proper descendant* with its parent as context;
the root is never itself replaced.  When a replacement fires, the parent slot
is updated only when the parent is an `A_Expr`, `TypeCast`, `NullTest` or
`FuncCall` (the `switch (nodeTag(context_parent_node))` of the source); for
any other parent (`List`, `SubLink`, `CoalesceExpr`, ...) the fresh node is
dropped and the old child stays.  After a replacement the walker still
recurses into the *old* node; a fresh replacement list shares its un-replaced
elements with the old list, so their in-place mutations remain visible.
`pseudoWalk n` is the net effect of the walk over the children of `n`
(with `n` as parent); `pseudoUpd c` is the net value of a child slot whose
parent accepts updates. -/

mutual

def pseudoWalk : Raw → Raw
  | .aexpr k l r => .aexpr k (pseudoUpdOpt l) (pseudoUpdOpt r)
  | .typeCast a => .typeCast (pseudoUpdOpt a)
  | .nullTest a => .nullTest (pseudoUpdOpt a)
  | .funcCall args => .funcCall (pseudoUpdList args)
  | .subLink t => .subLink (pseudoWalkOpt t)
  | .coalesce args => .coalesce (pseudoWalkList args)
  | .collateClause a => .collateClause (pseudoWalkOpt a)
  | .indirection a => .indirection (pseudoWalkOpt a)
  | .listExpr items => .listExpr (pseudoWalkList items)
  | .arrayExpr xs => .arrayExpr (pseudoWalkList xs)
  | .joinExpr j nat l r q =>
      .joinExpr j nat (pseudoWalkOpt l) (pseudoWalkOpt r) (pseudoWalkOpt q)
  | n => n

/-- Value of a child slot whose parent is in the update switch: replaceable
tops become the fresh node (a list replacement keeps fixing its shared
elements); everything else is just walked in place.  The non-replaceable
arms coincide with `pseudoWalk`. -/
def pseudoUpd : Raw → Raw
  | .rownum => makeIntConst CONNECT_BY_ROWNUM_FAKEVALUE
  | .columnRef fields p =>
      if isCrefByName (.columnRef fields p) "level" then
        makeIntConst CONNECT_BY_LEVEL_FAKEVALUE
      else .columnRef fields p
  | .listExpr items =>
      match replaceListFakeValue items with
      | some _ => .listExpr (pseudoUpdList items)
      | none => .listExpr (pseudoWalkList items)
  | .aexpr k l r => .aexpr k (pseudoUpdOpt l) (pseudoUpdOpt r)
  | .typeCast a => .typeCast (pseudoUpdOpt a)
  | .nullTest a => .nullTest (pseudoUpdOpt a)
  | .funcCall args => .funcCall (pseudoUpdList args)
  | .subLink t => .subLink (pseudoWalkOpt t)
  | .coalesce args => .coalesce (pseudoWalkList args)
  | .collateClause a => .collateClause (pseudoWalkOpt a)
  | .indirection a => .indirection (pseudoWalkOpt a)
  | .arrayExpr xs => .arrayExpr (pseudoWalkList xs)
  | .joinExpr j nat l r q =>
      .joinExpr j nat (pseudoWalkOpt l) (pseudoWalkOpt r) (pseudoWalkOpt q)
  | n => n

def pseudoUpdOpt : Option Raw → Option Raw
  | none => none
  | some c => some (pseudoUpd c)

def pseudoUpdList : List Raw → List Raw
  | [] => []
  | e :: rest => pseudoUpd e :: pseudoUpdList rest

def pseudoWalkOpt : Option Raw → Option Raw
  | none => none
  | some c => some (pseudoWalk c)

def pseudoWalkList : List Raw → List Raw
  | [] => []
  | e :: rest => pseudoWalk e :: pseudoWalkList rest

end

/-! ### `count_columnref_walker` / `walker_to_exclude_non_join_quals` (C9) -/

mutual

/-- `count_columnref_walker` applied at one node: a `ColumnRef` counts one
(and is not descended into); anything else recurses over its raw-walker
children. -/
def countColStep : Raw → Nat
  | .columnRef _ _ => 1
  | .aexpr _ l r => countColOpt l + countColOpt r
  | .nullTest a => countColOpt a
  | .subLink t => countColOpt t
  | .coalesce args => countColList args
  | .collateClause a => countColOpt a
  | .typeCast a => countColOpt a
  | .listExpr items => countColList items
  | .arrayExpr xs => countColList xs
  | .funcCall args => countColList args
  | .indirection a => countColOpt a
  | .joinExpr _ _ l r q => countColOpt l + countColOpt r + countColOpt q
  | _ => 0

def countColOpt : Option Raw → Nat
  | none => 0
  | some n => countColStep n

def countColList : List Raw → Nat
  | [] => 0
  | x :: xs => countColStep x + countColList xs

end

/-- Column references strictly below a node: the raw walker applied to the
node runs the counting callback on its children. -/
def countColChildren (n : Raw) : Nat :=
  match n with
  | .aexpr _ l r => countColOpt l + countColOpt r
  | .nullTest a => countColOpt a
  | .subLink t => countColOpt t
  | .coalesce args => countColList args
  | .collateClause a => countColOpt a
  | .typeCast a => countColOpt a
  | .listExpr items => countColList items
  | .arrayExpr xs => countColList xs
  | .funcCall args => countColList args
  | .indirection a => countColOpt a
  | .joinExpr _ _ l r q => countColOpt l + countColOpt r + countColOpt q
  | _ => 0

/-- The replacement `walker_to_exclude_non_join_quals` installs: the operator
expression is clobbered into `true OR true` (`lexpr` and `rexpr` become
boolean-true constants and the kind becomes `AEXPR_OR`). -/
def trueOrTrue : Raw :=
  .aexpr .orK (some (makeBoolAConst true)) (some (makeBoolAConst true))

mutual

/-- `walker_to_exclude_non_join_quals` applied at one node.  An `AEXPR_OP`
node whose subtree holds at most one `ColumnRef` is clobbered to
`true OR true`; an `AEXPR_OP` with more is kept entirely (the callback
returns `false` without recursing); every other node recurses over its
raw-walker children. -/
def excludeCb : Raw → Raw
  | .aexpr .opK l r =>
      if countColOpt l + countColOpt r ≤ 1 then trueOrTrue
      else .aexpr .opK l r
  | .aexpr k l r => .aexpr k (excludeOpt l) (excludeOpt r)
  | .nullTest a => .nullTest (excludeOpt a)
  | .subLink t => .subLink (excludeOpt t)
  | .coalesce args => .coalesce (excludeList args)
  | .collateClause a => .collateClause (excludeOpt a)
  | .typeCast a => .typeCast (excludeOpt a)
  | .listExpr items => .listExpr (excludeList items)
  | .arrayExpr xs => .arrayExpr (excludeList xs)
  | .funcCall args => .funcCall (excludeList args)
  | .indirection a => .indirection (excludeOpt a)
  | .joinExpr j nat l r q =>
      .joinExpr j nat (excludeOpt l) (excludeOpt r) (excludeOpt q)
  | n => n

def excludeOpt : Option Raw → Option Raw
  | none => none
  | some c => some (excludeCb c)

def excludeList : List Raw → List Raw
  | [] => []
  | x :: xs => excludeCb x :: excludeList xs

end

/-- The push-down entry point `raw_expression_tree_walker(whereCopy,
walker_to_exclude_non_join_quals, NULL)` runs the callback on the *children*
of the top node only - the top node itself is never tested against the
column-reference rule. -/
def excludeTop (n : Raw) : Raw :=
  match n with
  | .aexpr k l r => .aexpr k (excludeOpt l) (excludeOpt r)
  | .nullTest a => .nullTest (excludeOpt a)
  | .subLink t => .subLink (excludeOpt t)
  | .coalesce args => .coalesce (excludeList args)
  | .collateClause a => .collateClause (excludeOpt a)
  | .typeCast a => .typeCast (excludeOpt a)
  | .listExpr items => .listExpr (excludeList items)
  | .arrayExpr xs => .arrayExpr (excludeList xs)
  | .funcCall args => .funcCall (excludeList args)
  | .indirection a => .indirection (excludeOpt a)
  | .joinExpr j nat l r q =>
      .joinExpr j nat (excludeOpt l) (excludeOpt r) (excludeOpt q)
  | n => n

/-! ### START WITH / CONNECT BY clause analysis (C8)

`transformStartWithClause` and its helpers.  External collaborators
(`transformColumnRef` and the PLSQL column hooks, both outside the analyzed
sources) are threaded as oracles; the pre-pass result of `transformColumnRef`
is used only for being NULL / non-NULL (its value feeds a warning), so the
oracle returns `Bool`. -/

inductive SWErr where
  | forbiddenClause             -- TABLESAMPLE / TIMECAPSULE in FROM
  | pseudoColumnExpectsOperator -- checkConnectByExprValidity
  | unsupportedExprKind         -- A_Expr default: arms of the walkers
  | unsupportedNode             -- node-tag default: arms of the walkers
  | mixedPriorRownumLevel       -- flattenConnectByExpr
  | invalidColumnRef            -- HandleSWCBColumnRef, unresolved PRIOR field
  | columnFieldsUnsupported     -- HandleSWCBColumnRef, field count not 1 or 2
  | dummyColnameTooLong         -- makeStartWithDummayColname
  | ambiguousColumn             -- ExtractColumnRefStartInfo
  | priorKeyMissing             -- "must have at least one prior key"
  deriving DecidableEq, Repr

inductive SWRTEKind where
  | relation | subquery | cte | otherKind
  deriving DecidableEq, Repr

/-- `StartWithTargetRelInfo` (one entry of `pstate->p_start_info`), with the
fields this file reads: names, RTE kind, the column-name list used for
unqualified matching, `rte->eref->colnames` (used by `expandAllTargetList`),
the sub-CTE marker `rte->swSubExist`, and the raw FROM-item `tblstmt`. -/
structure SWRelInfo where
  relname : Option String
  aliasname : Option String
  rtekind : SWRTEKind
  columns : List String
  erefColnames : List String
  swSubExist : Bool
  tblstmt : Raw

/-- `equal()` on `StartWithTargetRelInfo` (used by `list_concat_unique` /
`list_member`). -/
def swRelInfoBeq (a b : SWRelInfo) : Bool :=
  a.relname == b.relname && a.aliasname == b.aliasname &&
  a.rtekind == b.rtekind && a.columns == b.columns &&
  a.erefColnames == b.erefColnames && a.swSubExist == b.swSubExist &&
  rawBeq a.tblstmt b.tblstmt

/-- `list_concat_unique(xs, ys)`: append each element of `ys` not already a
member (by `equal()`) of the growing result. -/
def listConcatUnique (xs ys : List SWRelInfo) : List SWRelInfo :=
  ys.foldl (fun acc y => if acc.any (fun x => swRelInfoBeq x y) then acc
                         else acc ++ [y]) xs

inductive ConnectByType where
  | prior | rownumType | levelType | mixedLevel
  deriving DecidableEq, Repr

/-- `StartWithTransformContext`. -/
structure SWContext where
  relInfoList : List SWRelInfo := []
  where_infos : List SWRelInfo := []
  connectby_prior_name : List String := []
  startWithExpr : Option Raw := none
  connectByExpr : Option Raw := none
  whereClause : Option Raw := none
  siblingsOrderBy : List Raw := []
  rownum_or_level_list : List Raw := []
  normal_list : List Raw := []
  is_where : Bool := false
  connect_by_type : ConnectByType := .prior
  fromClause : Option (List Raw) := none
  connectByLevelExpr : Option Raw := none
  connectByOtherExpr : Option Raw := none  -- never assigned in this file
  nocycle : Bool := false

/-- Oracles standing for the parse state's external collaborators. -/
structure SWEnv where
  p_start_info : List SWRelInfo
  /-- `preSkipPLSQLParams(pstate, cref)`: do the columnref hooks resolve it? -/
  preSkipParams : List String → Bool → Bool
  /-- `transformColumnRef(pstate, copyObject(cref)) != NULL`. -/
  transformColumnRefO : List String → Bool → Bool

def NAMEDATALEN : Nat := 64

/-- `makeStartWithDummayColname`: `alias ++ "@" ++ column`, erroring when
the combined length reaches `NAMEDATALEN` (ASCII lengths, as C counts
bytes). -/
def makeStartWithDummayColname (aliasStr column : String) :
    Except SWErr String :=
  if aliasStr.length + column.length + 1 ≥ NAMEDATALEN then
    .error .dummyColnameTooLong
  else .ok (aliasStr ++ "@" ++ column)

/-- `c == leading characters of hay`. -/
def leadMatch : List Char → List Char → Bool
  | [], _ => true
  | _ :: _, [] => false
  | a :: as, b :: bs => a == b && leadMatch as bs

def hasSubstrL (needle : List Char) : List Char → Bool
  | [] => needle.isEmpty
  | b :: bs => leadMatch needle (b :: bs) || hasSubstrL needle bs

/-- `strstr(hay, needle) != NULL`. -/
def hasSubstr (hay needle : String) : Bool := hasSubstrL needle.data hay.data

/-- The mutable locals of `ExtractColumnRefStartInfo`'s loop: `relname` and
`colname` are reassigned inside the loop and feed the *subsequent*
iterations' comparisons; `fields` is the columnref's field list, rewritten
in place on every match. -/
structure ExtractSt where
  relname : Option String
  colname : String
  fields : List String
  infos : List SWRelInfo

/-- One iteration of `ExtractColumnRefStartInfo`'s `foreach` over
`p_start_info`. -/
def extractStep (st : ExtractSt) (info : SWRelInfo) : ExtractSt :=
  let exist0 : Bool :=
    match st.relname with
    | none => info.columns.any (fun v => v == st.colname)
    | some rn =>
        (info.aliasname == some rn) || (info.relname == some rn)
  let (exist1, colname1) :=
    if info.swSubExist then
      match info.columns.find? (fun v => hasSubstr v st.colname) with
      | some v => (true, v)
      | none => (exist0, st.colname)
    else (exist0, st.colname)
  if exist1 then
    let rn' : String :=
      match info.rtekind with
      | .relation => (info.aliasname.orElse (fun _ => info.relname)).getD ""
      | .subquery => info.aliasname.getD ""
      | .cte => (info.aliasname.orElse (fun _ => info.relname)).getD ""
      | .otherKind => st.relname.getD ""   -- `relname` not reassigned
    { relname := some rn', colname := colname1,
      fields := [rn', colname1], infos := st.infos ++ [info] }
  else { st with colname := colname1 }

/-- `ExtractColumnRefStartInfo`: returns the matched infos and the (possibly
rewritten) columnref fields; errors when more than one info matched.  The
zero-match branch only emits a warning (using the pre-pass result), with no
semantic effect. -/
def ExtractColumnRefStartInfo (env : SWEnv) (fields0 : List String)
    (relname0 : Option String) (colname0 : String) :
    Except SWErr (List SWRelInfo × List String) :=
  let fin := env.p_start_info.foldl extractStep
    { relname := relname0, colname := colname0, fields := fields0,
      infos := [] }
  if fin.infos.length > 1 then .error .ambiguousColumn
  else .ok (fin.infos, fin.fields)

/-- Merge extraction results into the context (the tail of
`HandleSWCBColumnRef`). -/
def recordInfos (ctx : SWContext) (result : List SWRelInfo) : SWContext :=
  if ctx.is_where then
    { ctx with where_infos := listConcatUnique ctx.where_infos result }
  else
    { ctx with relInfoList := listConcatUnique ctx.relInfoList result }

/-- `HandleSWCBColumnRef` on a `ColumnRef` with the given fields and PRIOR
flag; returns the updated context and the (field-rewritten) node. -/
def HandleSWCBColumnRef (env : SWEnv) (ctx : SWContext)
    (fields : List String) (prior : Bool) :
    Except SWErr (SWContext × Raw) :=
  let node : Raw := .columnRef fields prior
  if strieq (fields.headD "") "tmp_reuslt" then .ok (ctx, node)
  else if env.preSkipParams fields prior && !prior then .ok (ctx, node)
  else if !(env.transformColumnRefO fields prior) then .ok (ctx, node)
  else
    match fields with
    | [f1] => do
        let (result, fields1) ← ExtractColumnRefStartInfo env [f1] none f1
        if prior then
          if fields1.length ≤ 1 then .error .invalidColumnRef
          else do
            let dummy ← makeStartWithDummayColname (fields1.headD "")
                          (fields1.getD 1 "")
            let ctx := { ctx with connectby_prior_name :=
                           ctx.connectby_prior_name ++ [dummy] }
            .ok (recordInfos ctx result,
                 .columnRef ["tmp_reuslt", dummy] prior)
        else
          .ok (recordInfos ctx result, .columnRef fields1 prior)
    | [f1, f2] => do
        let (result, fields1) ← ExtractColumnRefStartInfo env [f1, f2]
                                  (some f1) f2
        if prior then do
          let dummy ← makeStartWithDummayColname (fields1.headD "")
                        (fields1.getD 1 "")
          let ctx := { ctx with connectby_prior_name :=
                         ctx.connectby_prior_name ++ [dummy] }
          .ok (recordInfos ctx result,
               .columnRef ["tmp_reuslt", dummy] prior)
        else
          .ok (recordInfos ctx result, .columnRef fields1 prior)
    | _ => .error .columnFieldsUnsupported

/-! ### `rowNumOrLevelWalker` and `flattenConnectByExpr` -/

mutual

/-- `rowNumOrLevelWalker`, state `(hasRownumOrLevel, hasPrior)`.  Entry
short-circuits once both flags are set (skipping even the error arms). -/
def rowNumOrLevelWalker (e : Raw) (st : Bool × Bool) :
    Except SWErr (Bool × Bool) :=
  if st.1 && st.2 then .ok st
  else
    match e with
    | .columnRef fields p =>
        .ok (isCrefByName (.columnRef fields p) "level" || st.1,
             p || st.2)
    | .rownum => .ok (true, st.2)
    | .nullTest a => rowNumOrLevelOpt a st
    | .subLink t => rowNumOrLevelOpt t st
    | .coalesce args => rowNumOrLevelList args st
    | .collateClause a => rowNumOrLevelOpt a st
    | .typeCast a => rowNumOrLevelOpt a st
    | .listExpr items => rowNumOrLevelList items st
    | .funcCall args => rowNumOrLevelList args st
    | .indirection a => rowNumOrLevelOpt a st
    | .aexpr k l r =>
        match k with
        | .opK | .andK | .orK | .inK => do
            let st1 ← rowNumOrLevelOpt l st
            rowNumOrLevelOpt r st1
        | .notK => rowNumOrLevelOpt r st
        | .otherK => .error .unsupportedExprKind
    | .aconstInt v =>
        if v == CONNECT_BY_ROWNUM_FAKEVALUE ||
           v == CONNECT_BY_LEVEL_FAKEVALUE then .ok (true, st.2)
        else .ok st
    | .aconstBool _ => .ok st   -- A_Const, non-integer value
    | .aconstOther => .ok st
    | .arrayExpr _ => .ok st
    | .paramRef => .ok st
    | _ => .error .unsupportedNode

def rowNumOrLevelOpt (a : Option Raw) (st : Bool × Bool) :
    Except SWErr (Bool × Bool) :=
  match a with
  | none => .ok st
  | some e => rowNumOrLevelWalker e st

def rowNumOrLevelList (xs : List Raw) (st : Bool × Bool) :
    Except SWErr (Bool × Bool) :=
  match xs with
  | [] => .ok st
  | x :: rest => do
      let st1 ← rowNumOrLevelWalker x st
      rowNumOrLevelList rest st1

end

mutual

/-- `flattenConnectByExpr`: split the CONNECT BY conjunction into the
`(rownum_or_level_list, normal_list)` pair, erroring on a conjunct mixing
PRIOR with ROWNUM/LEVEL. -/
def flattenConnectByExpr : Raw → Except SWErr (List Raw × List Raw)
  | .aexpr .andK l r => do
      let (a1, b1) ← flattenConnectByOpt l
      let (a2, b2) ← flattenConnectByOpt r
      .ok (a1 ++ a2, b1 ++ b2)
  | e => do
      let (hasRL, hasP) ← rowNumOrLevelWalker e (false, false)
      if hasRL && hasP then .error .mixedPriorRownumLevel
      else if hasRL then .ok ([e], [])
      else .ok ([], [e])

def flattenConnectByOpt : Option Raw → Except SWErr (List Raw × List Raw)
  | none => .ok ([], [])
  | some e => flattenConnectByExpr e

end

/-- `buildExprUsingAnd`: right-nested `AEXPR_AND` conjunction of the list,
`NULL` for the empty list. -/
def buildExprUsingAnd : List Raw → Option Raw
  | [] => none
  | x :: rest =>
      match buildExprUsingAnd rest with
      | some r => some (.aexpr .andK (some x) (some r))
      | none => some x

/-! ### `StartWithWalker` -/

mutual

/-- `StartWithWalker`: normalizes column references (via
`HandleSWCBColumnRef`), detects the CONNECT BY kind from fake constants,
and rewrites the tree; unsupported nodes error.  Returns the updated
context and the rewritten expression (the C mutates in place). -/
def StartWithWalker (env : SWEnv) (ctx : SWContext) :
    Raw → Except SWErr (SWContext × Raw)
  | .columnRef fields p => HandleSWCBColumnRef env ctx fields p
  | .nullTest a =>
      match a with
      | some (.columnRef fields p) => do
          let (ctx1, n') ← HandleSWCBColumnRef env ctx fields p
          .ok (ctx1, .nullTest (some n'))
      | _ => do
          let (ctx1, a') ← StartWithWalkerOpt env ctx a
          .ok (ctx1, .nullTest a')
  | .subLink t =>
      match t with
      | some (.columnRef fields p) => do
          let (ctx1, n') ← HandleSWCBColumnRef env ctx fields p
          .ok (ctx1, .subLink (some n'))
      | _ => do
          let (ctx1, t') ← StartWithWalkerOpt env ctx t
          .ok (ctx1, .subLink t')
  | .coalesce args => do
      let (ctx1, args') ← StartWithWalkerList env ctx args
      .ok (ctx1, .coalesce args')
  | .collateClause a => do
      let (ctx1, a') ← StartWithWalkerOpt env ctx a
      .ok (ctx1, .collateClause a')
  | .typeCast a => do
      let (ctx1, a') ← StartWithWalkerOpt env ctx a
      .ok (ctx1, .typeCast a')
  | .listExpr items => do
      let (ctx1, items') ← StartWithWalkerList env ctx items
      .ok (ctx1, .listExpr items')
  | .arrayExpr xs => .ok (ctx, .arrayExpr xs)   -- T_A_ArrayExpr: break
  | .funcCall args => do
      let (ctx1, args') ← StartWithWalkerList env ctx args
      .ok (ctx1, .funcCall args')
  | .indirection a => do
      let (ctx1, a') ← StartWithWalkerOpt env ctx a
      .ok (ctx1, .indirection a')
  | .aexpr k l r =>
      match k with
      | .opK =>
          if (match l with
              | some le => isCrefByName le "level" ||
                  (match le with | .rownum => true | _ => false)
              | none => false) then
            -- MIXED LEVEL: clobber lexpr to a fake constant; rexpr is
            -- neither walked nor rewritten (the case breaks out).
            let fake : Int :=
              match l with
              | some .rownum => CONNECT_BY_ROWNUM_FAKEVALUE
              | _ => CONNECT_BY_LEVEL_FAKEVALUE
            .ok ({ ctx with connect_by_type := .mixedLevel },
                 .aexpr .opK (some (makeIntConst fake)) r)
          else do
            let (ctx1, l') ←
              match l with
              | some (.columnRef fields p) => do
                  let (c, n') ← HandleSWCBColumnRef env ctx fields p
                  pure (c, some n')
              | _ => StartWithWalkerOpt env ctx l
            let (ctx2, r') ←
              match r with
              | some (.columnRef fields p) => do
                  let (c, n') ← HandleSWCBColumnRef env ctx1 fields p
                  pure (c, some n')
              | _ => StartWithWalkerOpt env ctx1 r
            .ok (ctx2, .aexpr .opK l' r')
      | .andK => do
          -- the C deep-copies rexpr first to undo sharing with lexpr;
          -- our trees are pure values, so the copy is the identity
          let (ctx1, l') ← StartWithWalkerOpt env ctx l
          let (ctx2, r') ← StartWithWalkerOpt env ctx1 r
          .ok (ctx2, .aexpr .andK l' r')
      | .orK => do
          let (ctx1, l') ← StartWithWalkerOpt env ctx l
          let (ctx2, r') ← StartWithWalkerOpt env ctx1 r
          .ok (ctx2, .aexpr .orK l' r')
      | .inK => do
          let (ctx1, l') ← StartWithWalkerOpt env ctx l
          let (ctx2, r') ← StartWithWalkerOpt env ctx1 r
          .ok (ctx2, .aexpr .inK l' r')
      | .notK => do
          let (ctx1, r') ← StartWithWalkerOpt env ctx r
          .ok (ctx1, .aexpr .notK l r')
      | .otherK => .error .unsupportedExprKind
  | .aconstInt v =>
      -- GetStartWithFakeConstValue (header, outside src/): the integer
      -- value of an integer A_Const, non-fake otherwise.
      if v == CONNECT_BY_LEVEL_FAKEVALUE then
        .ok ({ ctx with connect_by_type := .levelType }, .aconstInt v)
      else if v == CONNECT_BY_ROWNUM_FAKEVALUE then
        .ok ({ ctx with connect_by_type := .rownumType }, .aconstInt v)
      else .ok (ctx, .aconstInt v)
  | .aconstBool b => .ok (ctx, .aconstBool b)
  | .aconstOther => .ok (ctx, .aconstOther)
  | .paramRef => .ok (ctx, .paramRef)
  | _ => .error .unsupportedNode

def StartWithWalkerOpt (env : SWEnv) (ctx : SWContext) :
    Option Raw → Except SWErr (SWContext × Option Raw)
  | none => .ok (ctx, none)
  | some e => do
      let (ctx1, e') ← StartWithWalker env ctx e
      .ok (ctx1, some e')

def StartWithWalkerList (env : SWEnv) (ctx : SWContext) :
    List Raw → Except SWErr (SWContext × List Raw)
  | [] => .ok (ctx, [])
  | x :: rest => do
      let (ctx1, x') ← StartWithWalker env ctx x
      let (ctx2, rest') ← StartWithWalkerList env ctx1 rest
      .ok (ctx2, x' :: rest')

end

/-! ### `transformStartWithClause` -/

/-- The `SelectStmt` fields `transformStartWithClause` reads (the START WITH
clause is inlined). -/
structure SWSelect where
  fromClause : List Raw
  whereClause : Option Raw
  startWithExpr : Option Raw
  connectByExpr : Option Raw
  nocycle : Bool
  siblingsOrderBy : List Raw

/-- `isForbiddenClausesPresent`: a `RangeTimeCapsule` or `RangeTableSample`
among the FROM items. -/
def isForbiddenClausesPresent (stmt : SWSelect) : Bool :=
  stmt.fromClause.any fun n =>
    match n with
    | .rangeTableSample => true
    | .rangeTimeCapsule => true
    | _ => false

/-- `checkConnectByExprValidity` fails iff the (already pseudo-walked) root
is still replaceable. -/
def connectByExprInvalid (cb : Option Raw) : Bool :=
  match cb with
  | none => false
  | some c => (tryReplaceFakeValue c).isSome

/-- `transformStartWithClause` up to (but excluding) its final
prior-key check. -/
def swClausePipeline (env : SWEnv) (stmt : SWSelect) :
    Except SWErr SWContext := do
  if isForbiddenClausesPresent stmt then .error .forbiddenClause
  else
    -- in-place pseudo replacement over the children of the CONNECT BY root
    let cb1 := stmt.connectByExpr.map pseudoWalk
    if connectByExprInvalid cb1 then .error .pseudoColumnExpectsOperator
    else do
      let ctx1 : SWContext :=
        { startWithExpr := stmt.startWithExpr, connectByExpr := cb1,
          connect_by_type := .prior, nocycle := stmt.nocycle,
          siblingsOrderBy := stmt.siblingsOrderBy,
          relInfoList := env.p_start_info }
      let (rl, nl) ← flattenConnectByOpt cb1
      let ctx2 := { ctx1 with
        rownum_or_level_list := rl, normal_list := nl,
        connectByLevelExpr := buildExprUsingAnd rl,
        connectByExpr := buildExprUsingAnd nl }
      let (ctx3, sw1) ← StartWithWalkerOpt env ctx2 ctx2.startWithExpr
      let ctx3 := { ctx3 with startWithExpr := sw1 }
      let (ctx4, lvl1) ← StartWithWalkerOpt env ctx3 ctx3.connectByLevelExpr
      let ctx4 := { ctx4 with connectByLevelExpr := lvl1 }
      let (ctx5, oth1) ← StartWithWalkerOpt env ctx4 ctx4.connectByExpr
      let ctx5 := { ctx5 with connectByExpr := oth1 }
      let ctx6 :=
        if env.p_start_info.length ≠ 1 then
          { ctx5 with whereClause := stmt.whereClause }
        else ctx5
      .ok ctx6

/-- `transformStartWithClause`: the pipeline, then the prior-key gate
("START WITH CONNECT BY 子句必须具有至少一个 prior 键" - "must have at
least one prior key"), raised iff a START WITH expression is present and no
prior name was recorded by any of the three walks. -/
def transformStartWithClause (env : SWEnv) (stmt : SWSelect) :
    Except SWErr SWContext := do
  let ctx ← swClausePipeline env stmt
  if stmt.startWithExpr.isSome && ctx.connectby_prior_name.isEmpty then
    .error .priorKeyMissing
  else .ok ctx

/-! ### The synthesized recursive-CTE statements (C4)

`CreateStartWithCTEOuterBranch`, `CreateStartWithCTEInnerBranch` and
`CreateStartWithCTE` build raw `SelectStmt` / `WithClause` /
`CommonTableExpr` trees; we embed just the fields this file writes or
reads.  `copyObject` on our pure values is the identity. -/

structure ResTargetM where
  name : Option String
  val : Raw

inductive SetOpM where
  | noneOp   -- SETOP_NONE (makeNode zero-fill)
  | unionOp  -- SETOP_UNION
  deriving DecidableEq, Repr

mutual

inductive SelectStmtM where
  | mk (targetList : List ResTargetM) (fromClause : List Raw)
       (whereClause : Option Raw) (withClause : Option WithClauseM)
       (op : SetOpM) (allFlag : Bool) (larg rarg : Option SelectStmtM)

inductive WithClauseM where
  | mk (ctes : List CommonTableExprM) (recursive : Bool)

/-- `CommonTableExpr` with its `StartWithOptions` (`swoptions`) inlined. -/
inductive CommonTableExprM where
  | mk (ctename : String) (ctequery : SelectStmtM)
       (swSiblingsOrderBy : List Raw) (swConnectByType : ConnectByType)
       (swLevelQuals : Option Raw) (swOtherQuals : Option Raw)
       (swNocycle : Bool)

end

def stmtTargetList : SelectStmtM → List ResTargetM
  | .mk t _ _ _ _ _ _ _ => t

def stmtFromClause : SelectStmtM → List Raw
  | .mk _ f _ _ _ _ _ _ => f

def stmtWhereClause : SelectStmtM → Option Raw
  | .mk _ _ w _ _ _ _ _ => w

def stmtWithClause : SelectStmtM → Option WithClauseM
  | .mk _ _ _ w _ _ _ _ => w

def stmtOp : SelectStmtM → SetOpM
  | .mk _ _ _ _ o _ _ _ => o

def stmtAll : SelectStmtM → Bool
  | .mk _ _ _ _ _ a _ _ => a

def stmtLarg : SelectStmtM → Option SelectStmtM
  | .mk _ _ _ _ _ _ l _ => l

def stmtRarg : SelectStmtM → Option SelectStmtM
  | .mk _ _ _ _ _ _ _ r => r

def cteName : CommonTableExprM → String
  | .mk n _ _ _ _ _ _ => n

def cteQuery : CommonTableExprM → SelectStmtM
  | .mk _ q _ _ _ _ _ => q

def withCtes : WithClauseM → List CommonTableExprM
  | .mk c _ => c

def withRecursive : WithClauseM → Bool
  | .mk _ r => r

/-- `makeNode(SelectStmt)`: zero-filled. -/
def emptySelect : SelectStmtM := .mk [] [] none none .noneOp false none none

mutual

/-- `equal()` on the synthesized statements (for `list_concat_unique` over
`p_ctenamespace`). -/
def stmtBeq : SelectStmtM → SelectStmtM → Bool
  | .mk t f w wc o a l r, .mk t' f' w' wc' o' a' l' r' =>
      rtListBeq t t' && rawListBeq f f' && rawOptBeq w w' &&
      withOptBeq wc wc' && o == o' && a == a' &&
      stmtOptBeq l l' && stmtOptBeq r r'

def stmtOptBeq : Option SelectStmtM → Option SelectStmtM → Bool
  | none, none => true
  | some a, some b => stmtBeq a b
  | _, _ => false

def withBeq : WithClauseM → WithClauseM → Bool
  | .mk c r, .mk c' r' => cteListBeq c c' && r == r'

def withOptBeq : Option WithClauseM → Option WithClauseM → Bool
  | none, none => true
  | some a, some b => withBeq a b
  | _, _ => false

def cteBeq : CommonTableExprM → CommonTableExprM → Bool
  | .mk n q so ct lq oq nc, .mk n' q' so' ct' lq' oq' nc' =>
      n == n' && stmtBeq q q' && rawListBeq so so' && ct == ct' &&
      rawOptBeq lq lq' && rawOptBeq oq oq' && nc == nc'

def cteListBeq : List CommonTableExprM → List CommonTableExprM → Bool
  | [], [] => true
  | a :: as, b :: bs => cteBeq a b && cteListBeq as bs
  | _, _ => false

def rtBeq : ResTargetM → ResTargetM → Bool
  | a, b => a.name == b.name && rawBeq a.val b.val

def rtListBeq : List ResTargetM → List ResTargetM → Bool
  | [], [] => true
  | a :: as, b :: bs => rtBeq a b && rtListBeq as bs
  | _, _ => false

end

/-- `list_concat_unique` over CTE lists. -/
def listConcatUniqueCte (xs ys : List CommonTableExprM) :
    List CommonTableExprM :=
  ys.foldl (fun acc y => if acc.any (fun x => cteBeq x y) then acc
                         else acc ++ [y]) xs

/-- The parse-state slice the CTE builders touch. -/
structure SWPState where
  origin_with : Option WithClauseM
  p_ctenamespace : List CommonTableExprM
  sw_selectstmt_with : Option WithClauseM  -- pstate->p_sw_selectstmt->withClause

/-- Remove the first CTE whose name matches case-insensitively
(`list_delete` of the first `pg_strcasecmp` hit). -/
def removeFirstCte : List CommonTableExprM → String → List CommonTableExprM
  | [], _ => []
  | c :: rest, rn =>
      if strieq (cteName c) rn then rest else c :: removeFirstCte rest rn

/-- Replace a statement's `withClause`. -/
def setWithClause (s : SelectStmtM) (w : Option WithClauseM) : SelectStmtM :=
  match s with
  | .mk t f wh _ o a l r => .mk t f wh w o a l r

/-- `AddWithClauseToBranch`: with no enclosing WITH, a no-op; otherwise,
for every CTE-kind rel-info, append *all* of the original clause's CTEs
to the accumulator and drop the first name-matching CTE from
`p_ctenamespace`; install the rebuilt clause unless the accumulator stayed
empty. -/
def AddWithClauseToBranch (ps : SWPState) (stmt : SelectStmtM)
    (relInfoList : List SWRelInfo) : SelectStmtM × SWPState :=
  match ps.origin_with with
  | none => (stmt, ps)
  | some clause =>
      let (ctes, ns) := relInfoList.foldl
        (fun (acc : List CommonTableExprM × List CommonTableExprM) info =>
          if info.rtekind ≠ .cte then acc
          else (acc.1 ++ withCtes clause,
                removeFirstCte acc.2 (info.relname.getD "")))
        ([], ps.p_ctenamespace)
      if ctes.isEmpty then (stmt, { ps with p_ctenamespace := ns })
      else (setWithClause stmt (some (.mk ctes (withRecursive clause))),
            { ps with p_ctenamespace := ns })

/-- The `relname` used to qualify a rel-info's expanded columns
(`expandAllTargetList`); kinds outside the three listed leave the local
NULL in C. -/
def expandRelname (info : SWRelInfo) : String :=
  match info.rtekind with
  | .subquery => info.aliasname.getD ""
  | .relation => (info.aliasname.orElse (fun _ => info.relname)).getD ""
  | .cte => (info.aliasname.orElse (fun _ => info.relname)).getD ""
  | .otherKind => ""

/-- Inner loop of `expandAllTargetList` over `rte->eref->colnames`:
empty names (dropped columns) are skipped, every other column yields a
`ResTarget` named by `makeStartWithDummayColname` whose value is the
two-field column reference. -/
def expandCols (relname : String) :
    List String → Except SWErr (List ResTargetM)
  | [] => .ok []
  | c :: rest =>
      if c.length == 0 then expandCols relname rest
      else do
        let nm ← makeStartWithDummayColname relname c
        let rest' ← expandCols relname rest
        .ok ({ name := some nm,
               val := .columnRef [relname, c] false } :: rest')

/-- `expandAllTargetList`. -/
def expandAllTargetList :
    List SWRelInfo → Except SWErr (List ResTargetM)
  | [] => .ok []
  | info :: rest => do
      let cols ← expandCols (expandRelname info) info.erefColnames
      let rest' ← expandAllTargetList rest
      .ok (cols ++ rest')

/-- The working-table range variable `makeRangeVar(NULL, "tmp_reuslt")`. -/
def workTableRangeVar : Raw := .rangeVar none "tmp_reuslt"

/-- `CreateStartWithCTEInnerBranch`: the step (recursive) branch.  The
single-rel case joins the working table directly with the copied FROM item;
the multi-rel case first folds `context->fromClause` into a left-deep
tree of constant-true inner joins, then pushes the exclusion-filtered WHERE
copy into that final join's condition.  (When the folded origin is not a
join node the C writes through a mistyped pointer; we leave the node
unchanged.)  All four CONNECT BY kinds build the same inner join. -/
def CreateStartWithCTEInnerBranch (ps : SWPState) (ctx : SWContext)
    (relInfoList : List SWRelInfo) (connectByExpr : Option Raw)
    (whereClause : Option Raw) :
    Except SWErr (SelectStmtM × SWPState) := do
  let (result0, ps1) := AddWithClauseToBranch ps emptySelect relInfoList
  let originTable : Option Raw :=
    match relInfoList with
    | [info] => some info.tblstmt
    | _ =>
        let folded := (ctx.fromClause.getD []).foldl
          (fun acc node =>
            match acc with
            | none => some node
            | some t => some (.joinExpr true false (some t) (some node)
                                (some (makeBoolAConst true))))
          none
        match whereClause with
        | none => folded
        | some w =>
            match folded with
            | some (.joinExpr j nat l r q) =>
                let whereCopy := excludeTop w
                some (.joinExpr j nat l r
                  (some (match q with
                         | none => whereCopy
                         | some q0 =>
                             .aexpr .andK (some whereCopy) (some q0))))
            | other => other
  let tl ← expandAllTargetList relInfoList
  let join : Raw := .joinExpr true false (some workTableRangeVar)
                      originTable connectByExpr
  .ok (.mk tl [join] none (stmtWithClause result0) .noneOp false none none,
       ps1)

/-- `CreateStartWithCTEOuterBranch`: the seed (non-recursive) branch.  Its
FROM list is `context->fromClause` when set, else the copied rel-info
statements; its WHERE is the START WITH expression, AND-combined with the
exclusion-filtered WHERE copy when a WHERE clause was passed down. -/
def CreateStartWithCTEOuterBranch (ps : SWPState) (ctx : SWContext)
    (relInfoList : List SWRelInfo) (startWithExpr : Option Raw)
    (whereClause : Option Raw) :
    Except SWErr (SelectStmtM × SWPState) := do
  let (result0, ps1) := AddWithClauseToBranch ps emptySelect relInfoList
  let targetlist ← expandAllTargetList relInfoList
  let tblist : List Raw :=
    match ctx.fromClause with
    | some fc => fc
    | none => relInfoList.map (fun i => i.tblstmt)
  let quals : Option Raw :=
    match startWithExpr, whereClause with
    | none, _ => whereClause.map excludeTop
    | some sw, none => some sw
    | some sw, some w => some (.aexpr .andK (some (excludeTop w)) (some sw))
  .ok (.mk targetlist tblist quals (stmtWithClause result0) .noneOp false
         none none,
       ps1)

/-- The query fields `CreateStartWithCTE` writes. -/
structure QueryOut where
  hasRecursive : Bool
  cteList : List CommonTableExprM
  hasModifyingCTE : Bool

/-- Oracles for the external calls of `CreateStartWithCTE`
(`transformWhereClause` over the LEVEL/ROWNUM quals, and
`transformWithClause`, including the CTE namespace it leaves behind when
started from an empty one). -/
structure CTEEnv where
  transformWhereClauseO : Option Raw → Option Raw
  transformWithClauseO : WithClauseM → List CommonTableExprM
  transformWithClauseNsO : WithClauseM → List CommonTableExprM
  p_hasModifyingCTE : Bool

/-- `CreateStartWithCTE`: the UNION ALL set operation of the two branches
becomes the body of the single CTE `"tmp_reuslt"`, wrapped in a recursive
WITH clause, which is installed on the saved SELECT and transformed into
the query's CTE list. -/
def CreateStartWithCTE (ps : SWPState) (env : CTEEnv) (ctx : SWContext)
    (initpart workpart : SelectStmtM) :
    WithClauseM × SWPState × QueryOut :=
  let setop : SelectStmtM :=
    .mk [] [] none none .unionOp true (some initpart) (some workpart)
  let commonExpr : CommonTableExprM :=
    .mk "tmp_reuslt" setop ctx.siblingsOrderBy ctx.connect_by_type
      (env.transformWhereClauseO ctx.connectByLevelExpr)
      ctx.connectByOtherExpr ctx.nocycle
  let withClause : WithClauseM := .mk [commonExpr] true
  let ps1 := { ps with sw_selectstmt_with := some withClause }
  let backup := ps1.p_ctenamespace
  let qry : QueryOut :=
    { hasRecursive := true,
      cteList := env.transformWithClauseO withClause,
      hasModifyingCTE := env.p_hasModifyingCTE }
  let ps2 := { ps1 with
    p_ctenamespace :=
      listConcatUniqueCte (env.transformWithClauseNsO withClause) backup }
  (withClause, ps2, qry)

/-- The branch/CTE-building prefix of `transformSingleRTE` (the remaining
range-table surgery acts on parse-state fields outside this model); the
branches receive the context's rel-infos and rewritten START WITH /
CONNECT BY expressions, and a NULL WHERE clause. -/
def transformSingleRTEModel (ps : SWPState) (env : CTEEnv)
    (ctx : SWContext) :
    Except SWErr
      (SelectStmtM × SelectStmtM × WithClauseM × SWPState × QueryOut) := do
  let (outer, ps1) ← CreateStartWithCTEOuterBranch ps ctx ctx.relInfoList
                       ctx.startWithExpr none
  let (inner, ps2) ← CreateStartWithCTEInnerBranch ps1 ctx ctx.relInfoList
                       ctx.connectByExpr none
  let (wc, ps3, q) := CreateStartWithCTE ps2 env ctx outer inner
  .ok (outer, inner, wc, ps3, q)

/-! ### Working-table reference counting -/

mutual

/-- Number of range-variable references to the working table
`"tmp_reuslt"` in a raw tree (a `RangeVar` of that name; column
references are qualifiers, not table references). -/
def wtRaw : Raw → Nat
  | .rangeVar _ rn => if strieq rn "tmp_reuslt" then 1 else 0
  | .aexpr _ l r => wtOpt l + wtOpt r
  | .nullTest a => wtOpt a
  | .subLink t => wtOpt t
  | .coalesce args => wtList args
  | .collateClause a => wtOpt a
  | .typeCast a => wtOpt a
  | .listExpr items => wtList items
  | .arrayExpr xs => wtList xs
  | .funcCall args => wtList args
  | .indirection a => wtOpt a
  | .joinExpr _ _ l r q => wtOpt l + wtOpt r + wtOpt q
  | _ => 0

def wtOpt : Option Raw → Nat
  | none => 0
  | some n => wtRaw n

def wtList : List Raw → Nat
  | [] => 0
  | x :: xs => wtRaw x + wtList xs

end

/-- Working-table references in a branch's own target list, FROM list and
WHERE clause. -/
def wtSelectTop (s : SelectStmtM) : Nat :=
  wtList ((stmtTargetList s).map (fun t => t.val)) +
  wtList (stmtFromClause s) + wtOpt (stmtWhereClause s)

/-! ### C9: which WHERE conjuncts survive the push-down -/

/-- A single-conjunct WHERE clause `c1 = 1` with exactly one column
reference. -/
def c9Where : Raw :=
  .aexpr .opK (some (.columnRef ["c1"] false)) (some (.aconstInt 1))

def c9info : SWRelInfo :=
  { relname := some "t", aliasname := none, rtekind := .relation,
    columns := ["c1"], erefColnames := ["c1"], swSubExist := false,
    tblstmt := .rangeVar none "t" }

def c9ps : SWPState :=
  { origin_with := none, p_ctenamespace := [], sw_selectstmt_with := none }

def c9sw : Raw :=
  .aexpr .opK (some (.columnRef ["t", "c1"] false)) (some (.aconstInt 1))

/-- C9 counterexample: the push-down runs
`raw_expression_tree_walker(whereCopy, walker_to_exclude_non_join_quals,
NULL)`, which applies the replacement callback only to *children* of the
WHERE root.  A WHERE clause that is itself a single operator conjunct with
one column reference (`c1 = 1`) is therefore attached *unchanged* - here to
the seed branch, whose synthesized WHERE becomes
`(c1 = 1) AND (t.c1 = 1)` with the one-column conjunct intact - refuting
"every conjunct containing at most one column reference is replaced by a
tautologically true expression".  (The callback itself, had it been
applied, would have replaced the node, as the last conjunct shows.) -/
theorem exclude_non_join_quals_top_conjunct_kept_cex :
    countColStep c9Where = 1 ∧ excludeTop c9Where = c9Where ∧
    CreateStartWithCTEOuterBranch c9ps {} [c9info] (some c9sw)
        (some c9Where) =
      .ok (.mk [{ name := some "t@c1",
                  val := .columnRef ["t", "c1"] false }]
             [.rangeVar none "t"]
             (some (.aexpr .andK (some c9Where) (some c9sw)))
             none .noneOp false none none,
           c9ps) ∧
    excludeCb c9Where = trueOrTrue :=
  ⟨rfl, rfl, rfl, rfl⟩

/-- C9 (corrected): the exclusion walker replaces an `AEXPR_OP` node it
visits by the tautology `true OR true` exactly when the node's subtree has
at most one column reference, and keeps it whole (without descending)
otherwise; `AEXPR_AND` nodes recurse into both sides; but the walk starts
at the *children* of the WHERE root, so the root conjunct itself is never
tested - even a root operator expression merely has the rule applied to
its two operand subtrees. -/
theorem exclude_non_join_quals_spec (l r : Option Raw) :
    (excludeCb (.aexpr .opK l r) =
       if countColChildren (.aexpr .opK l r) ≤ 1 then trueOrTrue
       else .aexpr .opK l r)
  ∧ (excludeCb (.aexpr .andK l r) =
       .aexpr .andK (excludeOpt l) (excludeOpt r))
  ∧ (excludeTop (.aexpr .andK l r) =
       .aexpr .andK (excludeOpt l) (excludeOpt r))
  ∧ (excludeTop (.aexpr .opK l r) =
       .aexpr .opK (excludeOpt l) (excludeOpt r)) :=
  ⟨rfl, rfl, rfl, rfl⟩

/-! ### C8: the prior-key gate -/

mutual

/-- Does any column reference in the tree carry the PRIOR mark?  (The
claim's phrase "a PRIOR-marked column reference appears in the CONNECT BY
expression", as a plain structural collector.) -/
def hasPriorRef : Raw → Bool
  | .columnRef _ p => p
  | .aexpr _ l r => hasPriorRefOpt l || hasPriorRefOpt r
  | .nullTest a => hasPriorRefOpt a
  | .subLink t => hasPriorRefOpt t
  | .coalesce args => hasPriorRefList args
  | .collateClause a => hasPriorRefOpt a
  | .typeCast a => hasPriorRefOpt a
  | .listExpr items => hasPriorRefList items
  | .arrayExpr xs => hasPriorRefList xs
  | .funcCall args => hasPriorRefList args
  | .indirection a => hasPriorRefOpt a
  | .joinExpr _ _ l r q =>
      hasPriorRefOpt l || hasPriorRefOpt r || hasPriorRefOpt q
  | _ => false

def hasPriorRefOpt : Option Raw → Bool
  | none => false
  | some n => hasPriorRef n

def hasPriorRefList : List Raw → Bool
  | [] => false
  | x :: xs => hasPriorRef x || hasPriorRefList xs

end

def c8info : SWRelInfo :=
  { relname := some "t", aliasname := none, rtekind := .relation,
    columns := ["id", "pid"], erefColnames := ["id", "pid"],
    swSubExist := false, tblstmt := .rangeVar none "t" }

/-- One base relation, hooks resolving nothing, pre-pass always
succeeding. -/
def c8env : SWEnv :=
  { p_start_info := [c8info],
    preSkipParams := fun _ _ => false,
    transformColumnRefO := fun _ _ => true }

/-- `START WITH PRIOR t.id = 1` - the PRIOR mark sits in the START WITH
expression. -/
def c8sw : Raw :=
  .aexpr .opK (some (.columnRef ["t", "id"] true)) (some (.aconstInt 1))

/-- `CONNECT BY t.id = t.pid` - no PRIOR mark anywhere in CONNECT BY. -/
def c8cb : Raw :=
  .aexpr .opK (some (.columnRef ["t", "id"] false))
    (some (.columnRef ["t", "pid"] false))

def c8stmt : SWSelect :=
  { fromClause := [.rangeVar none "t"], whereClause := none,
    startWithExpr := some c8sw, connectByExpr := some c8cb,
    nocycle := false, siblingsOrderBy := [] }

/-- The recorded prior names of an analysis outcome (empty on error). -/
def swPriorNames : Except SWErr SWContext → List String
  | .ok ctx => ctx.connectby_prior_name
  | .error _ => []

set_option maxHeartbeats 2000000 in
/-- C8 counterexample: the prior names are collected by the
`StartWithWalker` passes over the START WITH expression as well as over the
two CONNECT BY conjunctions, and the gate only checks that the combined
list is non-empty.  With `START WITH PRIOR t.id = 1 CONNECT BY t.id =
t.pid` the CONNECT BY expression contains no PRIOR-marked column reference,
yet analysis succeeds (the START WITH walk recorded the prior key
`"t@id"`), refuting "fails ... whenever no PRIOR-marked column reference
appears in the CONNECT BY expression". -/
theorem startwith_prior_key_cex :
    hasPriorRef c8cb = false ∧ c8stmt.connectByExpr = some c8cb ∧
    (match transformStartWithClause c8env c8stmt with
     | .ok _ => true
     | .error _ => false) = true ∧
    swPriorNames (transformStartWithClause c8env c8stmt) = ["t@id"] :=
  ⟨rfl, rfl, rfl, rfl⟩

/-- C8 (corrected): after the pipeline (pseudo-value replacement, CONNECT
BY flattening and the three `StartWithWalker` passes over START WITH, the
LEVEL/ROWNUM conjunction and the remaining conjunction) has produced a
context, `transformStartWithClause` fails with "must have at least one
prior key" precisely when a START WITH expression is present and *none* of
the three walks recorded a prior name - PRIOR marks in the START WITH
expression alone therefore satisfy the gate, and without a START WITH
expression the gate never fires. -/
theorem transformStartWithClause_prior_gate (env : SWEnv) (stmt : SWSelect)
    (ctx : SWContext) (h : swClausePipeline env stmt = .ok ctx) :
    (transformStartWithClause env stmt = .error .priorKeyMissing ↔
       stmt.startWithExpr.isSome = true ∧ ctx.connectby_prior_name = [])
  ∧ (transformStartWithClause env stmt = .ok ctx ↔
       ¬(stmt.startWithExpr.isSome = true ∧
          ctx.connectby_prior_name = [])) := by
  have hh : transformStartWithClause env stmt =
      (if stmt.startWithExpr.isSome && ctx.connectby_prior_name.isEmpty
       then .error .priorKeyMissing else .ok ctx) := by
    simp only [transformStartWithClause, Bind.bind, Except.bind, h]
  by_cases hs : stmt.startWithExpr.isSome = true
  · by_cases hp : ctx.connectby_prior_name = []
    · rw [hh, if_pos (by simp [hs, hp])]
      constructor
      · exact ⟨fun _ => ⟨hs, hp⟩, fun _ => rfl⟩
      · constructor
        · intro hcon; cases hcon
        · intro hcon; exact absurd ⟨hs, hp⟩ hcon
    · have hne : ctx.connectby_prior_name.isEmpty = false := by
        cases hl : ctx.connectby_prior_name with
        | nil => exact absurd hl hp
        | cons a l => rfl
      rw [hh, if_neg (by simp [hne])]
      constructor
      · constructor
        · intro hcon; cases hcon
        · intro ⟨_, hp'⟩; exact absurd hp' hp
      · exact ⟨fun _ => fun ⟨_, hp'⟩ => absurd hp' hp, fun _ => rfl⟩
  · rw [hh, if_neg (by simp [hs])]
    constructor
    · constructor
      · intro hcon; cases hcon
      · intro ⟨hs', _⟩; exact absurd hs' hs
    · exact ⟨fun _ => fun ⟨hs', _⟩ => absurd hs' hs, fun _ => rfl⟩

/-- The context the pipeline computes on the witness inputs. -/
def c8ctxVal : SWContext :=
  match swClausePipeline c8env c8stmt with
  | .ok c => c
  | .error _ => {}

set_option maxHeartbeats 2000000 in
/-- Witness for C8 on the concrete one-relation statement. -/
theorem transformStartWithClause_prior_gate_witness :
    swClausePipeline c8env c8stmt = .ok c8ctxVal ∧
    ((transformStartWithClause c8env c8stmt = .error .priorKeyMissing ↔
        c8stmt.startWithExpr.isSome = true ∧
          c8ctxVal.connectby_prior_name = [])
     ∧ (transformStartWithClause c8env c8stmt = .ok c8ctxVal ↔
        ¬(c8stmt.startWithExpr.isSome = true ∧
           c8ctxVal.connectby_prior_name = []))) :=
  ⟨rfl, transformStartWithClause_prior_gate c8env c8stmt c8ctxVal rfl⟩

/-! ### C4: shape of the rewritten recursive CTE -/

theorem wtList_append (a b : List Raw) :
    wtList (a ++ b) = wtList a + wtList b := by
  induction a with
  | nil => simp [wtList]
  | cons x xs ih => simp [wtList, ih]; omega

theorem wt_expandCols (rn : String) (cs : List String) (ts : List ResTargetM)
    (h : expandCols rn cs = .ok ts) :
    wtList (ts.map (fun t => t.val)) = 0 := by
  induction cs generalizing ts with
  | nil =>
      have h' : Except.ok ([] : List ResTargetM) = Except.ok ts := h
      cases h'
      rfl
  | cons c rest ih =>
      rw [expandCols] at h
      by_cases hlen : (c.length == 0) = true
      · rw [if_pos hlen] at h
        exact ih ts h
      · rw [if_neg hlen] at h
        simp only [Bind.bind, Except.bind] at h
        cases hmk : makeStartWithDummayColname rn c with
        | error e => rw [hmk] at h; cases h
        | ok nm =>
            rw [hmk] at h
            cases hrest : expandCols rn rest with
            | error e => rw [hrest] at h; cases h
            | ok rest' =>
                rw [hrest] at h
                have h' : Except.ok
                    (ResTargetM.mk (some nm) (Raw.columnRef [rn, c] false)
                      :: rest') = Except.ok ts := h
                cases h'
                simp only [List.map, wtList, wtRaw]
                rw [ih rest' hrest]

theorem wt_expandAll (ris : List SWRelInfo) (ts : List ResTargetM)
    (h : expandAllTargetList ris = .ok ts) :
    wtList (ts.map (fun t => t.val)) = 0 := by
  induction ris generalizing ts with
  | nil =>
      have h' : Except.ok ([] : List ResTargetM) = Except.ok ts := h
      cases h'
      rfl
  | cons info rest ih =>
      rw [expandAllTargetList] at h
      simp only [Bind.bind, Except.bind] at h
      cases hcols : expandCols (expandRelname info) info.erefColnames with
      | error e => rw [hcols] at h; cases h
      | ok cols =>
          rw [hcols] at h
          cases hrest : expandAllTargetList rest with
          | error e => rw [hrest] at h; cases h
          | ok rest' =>
              rw [hrest] at h
              have h' : Except.ok (cols ++ rest') = Except.ok ts := h
              cases h'
              rw [List.map_append, wtList_append,
                  wt_expandCols _ _ _ hcols, ih rest' hrest]

theorem outer_branch_single (ps : SWPState) (ctx : SWContext)
    (info : SWRelInfo) (sw : Raw)
    (hw : ps.origin_with = none) (hfrom : ctx.fromClause = none) :
    CreateStartWithCTEOuterBranch ps ctx [info] (some sw) none =
      (match expandAllTargetList [info] with
       | .ok tl => .ok (SelectStmtM.mk tl [info.tblstmt] (some sw) none
                          .noneOp false none none, ps)
       | .error e => .error e) := by
  simp only [CreateStartWithCTEOuterBranch, AddWithClauseToBranch, hw,
    hfrom, Bind.bind, Except.bind, stmtWithClause, emptySelect, List.map]
  cases expandAllTargetList [info] with
  | error e => rfl
  | ok tl => rfl

theorem inner_branch_single (ps : SWPState) (ctx : SWContext)
    (info : SWRelInfo) (cb : Raw)
    (hw : ps.origin_with = none) :
    CreateStartWithCTEInnerBranch ps ctx [info] (some cb) none =
      (match expandAllTargetList [info] with
       | .ok tl => .ok (SelectStmtM.mk tl
                          [.joinExpr true false (some workTableRangeVar)
                             (some info.tblstmt) (some cb)]
                          none none .noneOp false none none, ps)
       | .error e => .error e) := by
  simp only [CreateStartWithCTEInnerBranch, AddWithClauseToBranch, hw,
    Bind.bind, Except.bind, stmtWithClause, emptySelect]
  cases expandAllTargetList [info] with
  | error e => rfl
  | ok tl => rfl

/-- C4: on the single-rel-info path (`transformSingleRTE` feeds the
builders the context's rel-info, its rewritten START WITH / CONNECT BY
"other" expressions and a NULL WHERE clause), the rewrite builds exactly
one CTE, named after the working table, inside a `recursive` WITH clause,
whose body is a UNION ALL set operation of the seed branch (left) and the
step branch (right); given working-table-free inputs the seed branch holds
no reference to the working table, while the step branch's FROM clause is
the single inner join of the working-table range variable (left) with the
copied original target (right) under the CONNECT BY "other" quals, and
references the working table exactly once. -/
theorem startwith_cte_rewrite_shape (ps : SWPState) (env : CTEEnv)
    (ctx : SWContext) (info : SWRelInfo) (sw cb : Raw)
    (outer inner : SelectStmtM) (wc : WithClauseM) (ps2 : SWPState)
    (q : QueryOut)
    (hrel : ctx.relInfoList = [info])
    (hfrom : ctx.fromClause = none)
    (hsw : ctx.startWithExpr = some sw)
    (hcb : ctx.connectByExpr = some cb)
    (hw : ps.origin_with = none)
    (h1 : wtRaw info.tblstmt = 0) (h2 : wtRaw sw = 0) (h3 : wtRaw cb = 0)
    (hrun : transformSingleRTEModel ps env ctx =
      .ok (outer, inner, wc, ps2, q)) :
    wc = .mk [.mk "tmp_reuslt"
           (.mk [] [] none none .unionOp true (some outer) (some inner))
           ctx.siblingsOrderBy ctx.connect_by_type
           (env.transformWhereClauseO ctx.connectByLevelExpr)
           ctx.connectByOtherExpr ctx.nocycle] true
  ∧ q.hasRecursive = true
  ∧ wtSelectTop outer = 0
  ∧ stmtFromClause inner =
      [.joinExpr true false (some workTableRangeVar) (some info.tblstmt)
         (some cb)]
  ∧ wtList (stmtFromClause inner) = 1 := by
  rw [transformSingleRTEModel, hrel, hsw, hcb,
      outer_branch_single ps ctx info sw hw hfrom] at hrun
  cases htl : expandAllTargetList [info] with
  | error e =>
      rw [htl] at hrun
      simp only [Bind.bind, Except.bind] at hrun
      cases hrun
  | ok tl =>
      rw [htl] at hrun
      simp only [Bind.bind, Except.bind] at hrun
      rw [inner_branch_single ps ctx info cb hw, htl] at hrun
      simp only [CreateStartWithCTE] at hrun
      simp only [Except.ok.injEq, Prod.mk.injEq] at hrun
      obtain ⟨ho, hi, hwc, _, hq⟩ := hrun
      subst ho; subst hi; subst hwc; subst hq
      refine ⟨rfl, rfl, ?_, rfl, ?_⟩
      · show wtList (tl.map (fun t => t.val)) +
          wtList [info.tblstmt] + wtOpt (some sw) = 0
        rw [wt_expandAll [info] tl htl]
        simp [wtList, wtOpt, h1, h2]
      · show wtList [Raw.joinExpr true false (some workTableRangeVar)
            (some info.tblstmt) (some cb)] = 1
        simp [wtList, wtRaw, wtOpt, workTableRangeVar, h1, h3, strieq,
          lowerStr]

def c4info : SWRelInfo :=
  { relname := some "t", aliasname := none, rtekind := .relation,
    columns := ["id", "pid"], erefColnames := ["id", "pid"],
    swSubExist := false, tblstmt := .rangeVar none "t" }

/-- A rewritten START WITH expression (`t.id = 1`). -/
def c4sw : Raw :=
  .aexpr .opK (some (.columnRef ["t", "id"] false)) (some (.aconstInt 1))

/-- A rewritten CONNECT BY "other" expression
(`tmp_reuslt.t@id = t.pid`). -/
def c4cb : Raw :=
  .aexpr .opK (some (.columnRef ["tmp_reuslt", "t@id"] false))
    (some (.columnRef ["t", "pid"] false))

def c4ctx : SWContext :=
  { relInfoList := [c4info], startWithExpr := some c4sw,
    connectByExpr := some c4cb, fromClause := none }

def c4ps : SWPState :=
  { origin_with := none, p_ctenamespace := [], sw_selectstmt_with := none }

def c4env : CTEEnv :=
  { transformWhereClauseO := fun x => x,
    transformWithClauseO := fun _ => [],
    transformWithClauseNsO := fun _ => [],
    p_hasModifyingCTE := false }

/-- The computed rewrite on the witness inputs. -/
def c4res : SelectStmtM × SelectStmtM × WithClauseM × SWPState × QueryOut :=
  match transformSingleRTEModel c4ps c4env c4ctx with
  | .ok r => r
  | .error _ =>
      (emptySelect, emptySelect, .mk [] false, c4ps,
       { hasRecursive := false, cteList := [], hasModifyingCTE := false })

set_option maxHeartbeats 2000000 in
/-- Witness for C4 on a concrete one-relation hierarchical query. -/
theorem startwith_cte_rewrite_shape_witness :
    transformSingleRTEModel c4ps c4env c4ctx =
      .ok (c4res.1, c4res.2.1, c4res.2.2.1, c4res.2.2.2.1,
           c4res.2.2.2.2) ∧
    (c4res.2.2.1 = .mk [.mk "tmp_reuslt"
         (.mk [] [] none none .unionOp true (some c4res.1)
            (some c4res.2.1))
         c4ctx.siblingsOrderBy c4ctx.connect_by_type
         (c4env.transformWhereClauseO c4ctx.connectByLevelExpr)
         c4ctx.connectByOtherExpr c4ctx.nocycle] true
     ∧ c4res.2.2.2.2.hasRecursive = true
     ∧ wtSelectTop c4res.1 = 0
     ∧ stmtFromClause c4res.2.1 =
         [.joinExpr true false (some workTableRangeVar)
            (some c4info.tblstmt) (some c4cb)]
     ∧ wtList (stmtFromClause c4res.2.1) = 1) :=
  ⟨rfl, startwith_cte_rewrite_shape c4ps c4env c4ctx c4info c4sw c4cb
     _ _ _ _ _ rfl rfl rfl rfl rfl rfl rfl rfl rfl⟩

end ParseStartWith
